import Mathlib

/-!
Verification of the sti-hpc scenario-description core: the binary
building-plan codec (src/utils/plan.py), the parameter-schema validator and
hospital aggregate (src/utils/builder.py, src/utils/simulation.py), and the
process-layout properties (src/utils/simulation.py).

Python floats are modelled as exact rationals, byte strings as lists of
naturals, Python dicts as insertion-ordered association lists, and raised
exceptions as `Except` errors.  Python hash sets of parameters are modelled
as lists carrying one explicit iteration order.
-/

/-- Decidable equality for `Except` results, to evaluate the embedded
operations on concrete inputs. -/
instance exceptDecidableEq {ε α : Type} [DecidableEq ε] [DecidableEq α] :
    DecidableEq (Except ε α) := fun x y =>
  match x, y with
  | .ok a, .ok b =>
    if h : a = b then .isTrue (by rw [h])
    else .isFalse (fun hc => h (Except.ok.inj hc))
  | .error a, .error b =>
    if h : a = b then .isTrue (by rw [h])
    else .isFalse (fun hc => h (Except.error.inj hc))
  | .ok _, .error _ => .isFalse (fun hc => Except.noConfusion hc)
  | .error _, .ok _ => .isFalse (fun hc => Except.noConfusion hc)

namespace Plan

/-- A tile object of src/utils/plan.py.  The observable state of a tile is
its class together with the `code` attribute; only `Doctor` instances carry
a mutable `code` field, the other classes have a fixed class-level code. -/
inductive Tile where
  | floor
  | wall
  | chair
  | entry
  | exitT
  | triage
  | icu
  | receptionist
  | doctor (code : ℕ)
deriving DecidableEq, Repr

/-- The `code` attribute read by `BuildingPlan.to_bytes`. -/
def Tile.code : Tile → ℕ
  | .floor => 0
  | .wall => 1
  | .chair => 16
  | .entry => 64
  | .exitT => 65
  | .triage => 66
  | .icu => 67
  | .receptionist => 96
  | .doctor c => c

/-- `Doctor.__init__`: specialty type must lie in [0,127]; the stored code is
`type + 128`. -/
def doctorInit (ty : ℤ) : Except String Tile :=
  if 0 ≤ ty ∧ ty ≤ 127 then .ok (.doctor (ty + 128).toNat)
  else .error "Invalid Doctor type, value must be between 0 and 127"

/-- `Doctor.decode`: accepts a byte in [128,255] and stores `type - 128` in
the `code` attribute (the source stores the specialty index, not the wire
code). -/
def doctorDecode (ty : ℕ) : Except String Tile :=
  if 128 ≤ ty ∧ ty ≤ 255 then .ok (.doctor (ty - 128))
  else .error "Invalid Doctor type, value must be between 128 and 255"

/-- The `decode` helper inside `BuildingPlan.from_bytes`: scan the tile
subclasses in definition order comparing class codes, then try the Doctor
code range. -/
def decodeTile (c : ℕ) : Except String Tile :=
  if c = 0 then .ok .floor
  else if c = 1 then .ok .wall
  else if c = 16 then .ok .chair
  else if c = 64 then .ok .entry
  else if c = 65 then .ok .exitT
  else if c = 66 then .ok .triage
  else if c = 67 then .ok .icu
  else if c = 96 then .ok .receptionist
  else if 128 ≤ c ∧ c ≤ 255 then doctorDecode c
  else .error "Unknown tile"

/-- Plan file header: column and row counts (the magic bytes, version and
reserved field are fixed by the format, not stored). -/
structure Header where
  columns : ℕ
  rows : ℕ
deriving DecidableEq, Repr

/-- Little-endian 4-byte encoding of an unsigned 32-bit value. -/
def u32le (n : ℕ) : List ℕ :=
  [n % 256, n / 256 % 256, n / 65536 % 256, n / 16777216 % 256]

/-- Little-endian read of 4 bytes starting at offset `i`. -/
def readU32 (buf : List ℕ) (i : ℕ) : ℕ :=
  buf.getD i 0 + 256 * buf.getD (i + 1) 0 + 65536 * buf.getD (i + 2) 0 +
    16777216 * buf.getD (i + 3) 0

/-- `Header.to_bytes`: magic bytes P,L,A, version 1, columns, rows, and a
reserved 32-bit field packed as zero. -/
def Header.toBytes (h : Header) : List ℕ :=
  [80, 76, 65, 1] ++ u32le h.columns ++ u32le h.rows ++ u32le 0

/-- `Header.from_bytes`: requires exactly 16 bytes, checks the magic bytes
and the version, then loads the dimensions.  The 4 reserved bytes are never
inspected. -/
def Header.fromBytes (buf : List ℕ) : Except String Header :=
  if buf.length ≠ 16 then .error "Wrong buffer size"
  else if buf.getD 0 0 ≠ 80 then .error "Unknown magic numbers"
  else if buf.getD 1 0 ≠ 76 then .error "Unknown magic numbers"
  else if buf.getD 2 0 ≠ 65 then .error "Unknown magic numbers"
  else if buf.getD 3 0 ≠ 1 then .error "Unsupported version"
  else .ok ⟨readU32 buf 4, readU32 buf 8⟩

/-- A building plan: a header plus the tile matrix, stored as a list of
columns, each a list of `rows` tiles. -/
structure BuildingPlan where
  header : Header
  data : List (List Tile)
deriving DecidableEq, Repr

/-- `BuildingPlan.__init__`: an empty map filled with floor tiles. -/
def BuildingPlan.init (columns rows : ℕ) : BuildingPlan :=
  ⟨⟨columns, rows⟩, List.replicate columns (List.replicate rows .floor)⟩

/-- `BuildingPlan.to_bytes`: the header bytes followed by one code byte per
tile, flattened column by column. -/
def BuildingPlan.toBytes (p : BuildingPlan) : List ℕ :=
  p.header.toBytes ++ (p.data.map (fun col => col.map Tile.code)).flatten

/-- Decode a list of code bytes into tiles, failing at the first unknown
code (the inner list comprehension of `from_bytes`). -/
def decodeList : List ℕ → Except String (List Tile)
  | [] => .ok []
  | c :: cs => do
    let t ← decodeTile c
    let ts ← decodeList cs
    .ok (t :: ts)

/-- Decode every row slice of the payload (the outer list comprehension of
`from_bytes`). -/
def decodeMatrix : List (List ℕ) → Except String (List (List Tile))
  | [] => .ok []
  | r :: rs => do
    let ts ← decodeList r
    let tss ← decodeMatrix rs
    .ok (ts :: tss)

/-- The payload slices `buffer[16 + height*i : 16 + height*i + height]` for
`i < width`. -/
def planSlices (buf : List ℕ) (width height : ℕ) : List (List ℕ) :=
  (List.range width).map (fun i => ((buf.drop (16 + height * i)).take height))

/-- `BuildingPlan.from_bytes`: parse the header from the first 16 bytes,
check the payload length against columns*rows, then decode the payload
slice by slice. -/
def BuildingPlan.fromBytes (buf : List ℕ) : Except String BuildingPlan := do
  let h ← Header.fromBytes (buf.take 16)
  if (buf.drop 16).length ≠ h.columns * h.rows then .error "Wrong file size"
  else do
    let data ← decodeMatrix (planSlices buf h.columns h.rows)
    .ok ⟨h, data⟩

/-- The byte values that decode to some tile: one of the fixed class codes,
or the Doctor sub-range [128,255]. -/
def knownTileCode (c : ℕ) : Prop :=
  c = 0 ∨ c = 1 ∨ c = 16 ∨ c = 64 ∨ c = 65 ∨ c = 66 ∨ c = 67 ∨ c = 96 ∨
    (128 ≤ c ∧ c ≤ 255)

instance knownTileCodeDec : DecidablePred knownTileCode := fun c => by
  unfold knownTileCode
  infer_instance

end Plan

namespace Builder

/-- A runtime value of a parameter document: Python floats are exact
rationals, ints are integers, `TimePeriod` objects carry their four validated
fields, numpy arrays carry their shape and dtype, dicts are
insertion-ordered association lists. -/
inductive Value where
  | vfloat (q : ℚ)
  | vint (n : ℤ)
  | vstr (s : String)
  | vtime (days hours minutes seconds : ℕ)
  | vmatrix (shape : List ℕ) (dtype : String)
  | vdict (entries : List (String × Value))
  | vlist (elems : List Value)

/-- The concrete Python types a scalar `Parameter` can declare. -/
inductive PType where
  | pfloat
  | pint
  | pstr
  | ptime
  | pmatrix
deriving DecidableEq, Repr

/-- The custom validation lambdas appearing in `Hospital.required_parameters`,
with the diagnostic message each one returns. -/
inductive CustomV where
  | nonneg (msg : String)
  | nonnegInt (msg : String)
  | intMatrix (msg : String)
deriving DecidableEq, Repr

/-- A `Parameter` of src/utils/builder.py: either a concrete-typed scalar
(with optional custom validator, probability flag and probability group), a
set of child parameters, or a list-of-records parameter (`islist=True`).
The Python sets of children are modelled as lists carrying one fixed
iteration order (the source's textual order); Python set iteration order is
not specified. -/
inductive Param where
  | scalar (key : String) (ty : PType) (validator : Option CustomV)
      (prob : Bool) (pgroup : Option String)
  | nested (key : String) (children : List Param)
  | plist (key : String) (children : List Param)

/-- The exceptions `Parameter.validate` / `Parameters.validate` can raise. -/
inductive VErr where
  | wrongValue (fullKey : String)
  | missingParameter (fullKey : String)
  | mustBeList (fullKey : String)
  | emptyList (fullKey : String)
  | shouldBeDict (key : String)
  | typeMismatch (fullKey : String) (tyName : String)
  | probOutOfRange (fullKey : String)
  | groupOverflow (group : String)
  | customFailed (fullKey : String) (msg : String)
  | indexTypeError (fullKey : String)
  | comparisonTypeError (fullKey : String)
  | groupIncomplete (group : String) (sum : ℚ)
  | depthExceeded
deriving DecidableEq, Repr

/-- Exact rational addition, written through `mkRat` so that it evaluates
inside the kernel (the library's `Rat.add` is irreducible);
`ratAdd_eq_add` below proves it is ordinary addition on `ℚ`. -/
def ratAdd (a b : ℚ) : ℚ :=
  mkRat (a.num * b.den + b.num * a.den) (a.den * b.den)

/-- The probability-group accumulator dictionary: insertion-ordered. -/
def lookupAcc : List (String × ℚ) → String → Option ℚ
  | [], _ => none
  | e :: t, g => if e.1 = g then some e.2 else lookupAcc t g

/-- `accumulators[g] += v` with `accumulators[g] = v` on `KeyError`:
update in place, or append a new entry. -/
def addAcc : List (String × ℚ) → String → ℚ → List (String × ℚ)
  | [], g, q => [(g, q)]
  | e :: t, g, q => if e.1 = g then (e.1, ratAdd e.2 q) :: t else e :: addAcc t g q

def dictLookup : List (String × Value) → String → Option Value
  | [], _ => none
  | e :: t, k => if e.1 = k then some e.2 else dictLookup t k

/-- `isinstance(values, (list, dict))`. -/
def Value.isListOrDict : Value → Bool
  | .vdict _ => true
  | .vlist _ => true
  | _ => false

/-- `isinstance(v, dict)`. -/
def Value.isDictB : Value → Bool
  | .vdict _ => true
  | _ => false

/-- Python `==` between a `str` key and a document value: only a string
value can compare equal to the key. -/
def isStrEq (k : String) : Value → Bool
  | .vstr s => s = k
  | _ => false

/-- `self.key not in values`: dict key containment, or list membership
comparing the key string against the elements. -/
def keyIn (values : Value) (k : String) : Bool :=
  match values with
  | .vdict entries => (dictLookup entries k).isSome
  | .vlist elems => elems.any (isStrEq k)
  | _ => false

/-- `values[self.key]` once containment succeeded: a dict yields the entry,
a list indexed by a string raises `TypeError`. -/
def getItem (values : Value) (k : String) (fk : String) : Except VErr Value :=
  match values with
  | .vdict entries =>
    match dictLookup entries k with
    | some v => .ok v
    | none => .error (.missingParameter fk)
  | _ => .error (.indexTypeError fk)

/-- `isinstance(values[key], self.type)`; numeric kinds are never
cross-coerced. -/
def typeMatches : PType → Value → Bool
  | .pfloat, .vfloat _ => true
  | .pint, .vint _ => true
  | .pstr, .vstr _ => true
  | .ptime, .vtime _ _ _ _ => true
  | .pmatrix, .vmatrix _ _ => true
  | _, _ => false

def typeName : PType → String
  | .pfloat => "float"
  | .pint => "int"
  | .pstr => "str"
  | .ptime => "TimePeriod"
  | .pmatrix => "ndarray"

/-- The numeric content a comparison or accumulation reads. -/
def Value.asRat : Value → Option ℚ
  | .vfloat q => some q
  | .vint n => some n
  | _ => none

/-- Evaluate a custom validation lambda on the (already type-checked)
value. -/
def runCustom : CustomV → Value → Bool × String
  | .nonneg msg, .vfloat q => (decide (0 ≤ q), msg)
  | .nonneg msg, _ => (false, msg)
  | .nonnegInt msg, .vint n => (decide (0 ≤ n), msg)
  | .nonnegInt msg, _ => (false, msg)
  | .intMatrix msg, .vmatrix shape dtype =>
    (decide (shape.length = 2) && (dtype == "int64"), msg)
  | .intMatrix msg, _ => (false, msg)

/-- `full_key` of a parameter given its parent's full key and whether the
parent is a list parameter (`None` at the root). -/
def fkOf (pref : Option (String × Bool)) (key : String) : String :=
  match pref with
  | none => key
  | some (pf, isl) => pf ++ (if isl then "[]" else "") ++ "." ++ key

/-- `if not 0 <= values[key] < 1: raise` when the parameter is flagged as a
probability. -/
def probCheck (fk : String) (v : Value) (probability : Bool) :
    Except VErr Unit :=
  if probability then
    match v.asRat with
    | some q => if 0 ≤ q ∧ q < 1 then .ok () else .error (.probOutOfRange fk)
    | none => .error (.comparisonTypeError fk)
  else .ok ()

/-- `accumulators[self.pgroup] += value` followed by the immediate overflow
check `accumulators[self.pgroup] > 1`. -/
def groupAdd (fk : String) (v : Value) (pg : Option String)
    (acc : List (String × ℚ)) : Except VErr (List (String × ℚ)) :=
  match pg with
  | none => .ok acc
  | some g =>
    match v.asRat with
    | some q =>
      let acc' := addAcc acc g q
      if (lookupAcc acc' g).getD 0 > 1 then .error (.groupOverflow g)
      else .ok acc'
    | none => .error (.comparisonTypeError fk)

/-- The custom validation lambda, run last. -/
def customCheck (fk : String) (v : Value) (cv : Option CustomV) :
    Except VErr Unit :=
  match cv with
  | none => .ok ()
  | some c =>
    let r := runCustom c v
    if r.1 then .ok () else .error (.customFailed fk r.2)

/-- The probability/range/group/custom pipeline of the concrete-type branch
of `Parameter.validate`, after the isinstance check succeeded; the
probability flag is `prob or (pgroup is not None)` as set by
`Parameter.__init__`. -/
def scalarChecks (fk : String) (v : Value) (cv : Option CustomV) (prob : Bool)
    (pg : Option String) (acc : List (String × ℚ)) :
    Except VErr (List (String × ℚ)) := do
  probCheck fk v (prob || pg.isSome)
  let acc' ← groupAdd fk v pg acc
  customCheck fk v cv
  .ok acc'

/-- Whether a parameter subtree holds no scalar node tagged with group `g`,
to fuel depth `n` (matching the validator's fuel). -/
def groupFreeF : ℕ → Param → String → Bool
  | 0, _, _ => false
  | _ + 1, .scalar _ _ _ _ pg, g => decide (pg ≠ some g)
  | n + 1, .nested _ children, g => children.all (fun p => groupFreeF n p g)
  | n + 1, .plist _ children, g => children.all (fun p => groupFreeF n p g)

/-- One sibling pass: validate each parameter of the list against the same
values, threading the accumulators (the `for parameter in self.parameters`
and `for req_param in self.type` loops). -/
def validateAll
    (f : Param → Value → List (String × ℚ) → Except VErr (List (String × ℚ))) :
    List Param → Value → List (String × ℚ) → Except VErr (List (String × ℚ))
  | [], _, acc => .ok acc
  | p :: ps, v, acc => do
    let acc' ← f p v acc
    validateAll f ps v acc'

/-- The `for element in values[self.key]` loop of a list parameter: group
accumulators persist across elements. -/
def validateElems
    (f : Param → Value → List (String × ℚ) → Except VErr (List (String × ℚ)))
    (children : List Param) :
    List Value → List (String × ℚ) → Except VErr (List (String × ℚ))
  | [], acc => .ok acc
  | e :: es, acc => do
    let acc' ← validateAll f children e acc
    validateElems f children es acc'

/-- The `for parameter in self.type` loop of a parameter-set node: the
`isinstance(values[self.key], dict)` check is repeated before each child
(so it is skipped entirely when there are no children). -/
def validateChildren
    (f : Param → Value → List (String × ℚ) → Except VErr (List (String × ℚ)))
    : List Param → String → Value → List (String × ℚ) →
      Except VErr (List (String × ℚ))
  | [], _, _, acc => .ok acc
  | p :: ps, pk, v, acc =>
    if ¬ v.isDictB then .error (.shouldBeDict pk)
    else do
      let acc' ← f p v acc
      validateChildren f ps pk v acc'

/-- `Parameter.validate(values, accumulators)`.  The first argument is
recursion fuel consumed only on schema descent (the embedded schemas have
depth at most 4, and every use below passes fuel 8, so the `depthExceeded`
branch is unreachable); the second is the parent's full key and list flag. -/
def pvalidate : ℕ → Option (String × Bool) → Param → Value →
    List (String × ℚ) → Except VErr (List (String × ℚ))
  | 0, _, _, _, _ => .error .depthExceeded
  | fuel + 1, pref, p, values, acc =>
    match p with
    | .scalar key ty cv prob pg =>
      let fk := fkOf pref key
      if ¬ values.isListOrDict then .error (.wrongValue fk)
      else if ¬ keyIn values key then .error (.missingParameter fk)
      else do
        let v ← getItem values key fk
        if ¬ typeMatches ty v then .error (.typeMismatch fk (typeName ty))
        else scalarChecks fk v cv prob pg acc
    | .nested key children =>
      let fk := fkOf pref key
      if ¬ values.isListOrDict then .error (.wrongValue fk)
      else if ¬ keyIn values key then .error (.missingParameter fk)
      else do
        let v ← getItem values key fk
        validateChildren (pvalidate fuel (some (fk, false))) children key v acc
    | .plist key children =>
      let fk := fkOf pref key
      if ¬ values.isListOrDict then .error (.wrongValue fk)
      else if ¬ keyIn values key then .error (.missingParameter fk)
      else do
        let v ← getItem values key fk
        match v with
        | .vlist elems =>
          if elems.length = 0 then .error (.emptyList fk)
          else validateElems (pvalidate fuel (some (fk, true))) children elems acc
        | _ => .error (.mustBeList fk)

/-- The final loop of `Parameters.validate`: every accumulated group must
have reached at least 1 (dict iteration order = insertion order). -/
def finalCheck : List (String × ℚ) → Except VErr Unit
  | [] => .ok ()
  | e :: t => if e.2 < 1 then .error (.groupIncomplete e.1 e.2) else finalCheck t

/-- `Parameters.validate(values)`: walk every top-level parameter with fresh
accumulators, then check the groups. -/
def paramsValidate (ps : List Param) (values : Value) : Except VErr Unit := do
  let acc ← validateAll (pvalidate 8 none) ps values []
  finalCheck acc

/-- The `human` parameter set of `Hospital.required_parameters`, children in
the source's textual order. -/
def humanParam : Param :=
  .nested "human" [
    .scalar "infect_probability" .pfloat none true none,
    .scalar "infect_distance" .pfloat (some (.nonneg "Must be >= 0")) false none,
    .scalar "contamination_probability" .pfloat none true none,
    .scalar "incubation_time" .ptime none false none]

/-- The `objects` parameter set. -/
def objectsParam : Param :=
  .nested "objects" [
    .nested "chair" [
      .scalar "infect_probability" .pfloat none true none,
      .scalar "radius" .pfloat (some (.nonneg "Must be >=  0")) false none,
      .scalar "cleaning_interval" .ptime none false none],
    .nested "bed" [
      .scalar "infect_probability" .pfloat none true none,
      .scalar "radius" .pfloat (some (.nonneg "Must be at least 0")) false none,
      .scalar "cleaning_interval" .ptime none false none]]

/-- The `patient` parameter set. -/
def patientParam : Param :=
  .nested "patient" [
    .scalar "walk_speed" .pfloat (some (.nonneg "Must be >= 0")) false none,
    .scalar "infected_probability" .pfloat none true none,
    .scalar "influx" .pmatrix (some (.intMatrix "Must be a matrix of ints"))
      false none]

/-- The `reception` parameter set. -/
def receptionParam : Param :=
  .nested "reception" [.scalar "attention_time" .ptime none false none]

/-- The `triage` parameter set, holding both probability groups
`triage_diagnosis` (the scalar `icu` plus the `doctors_probabilities`
records) and `triage_levels` (the `levels` records). -/
def triageParam : Param :=
  .nested "triage" [
    .scalar "attention_time" .ptime none false none,
    .scalar "icu" .pfloat none true (some "triage_diagnosis"),
    .plist "doctors_probabilities" [
      .scalar "specialty" .pstr none false none,
      .scalar "probability" .pfloat none false (some "triage_diagnosis")],
    .plist "levels" [
      .scalar "level" .pint (some (.nonnegInt "Must be a positive int"))
        false none,
      .scalar "probability" .pfloat none false (some "triage_levels"),
      .scalar "wait_time" .ptime none false none]]

/-- The `icu` parameter set. -/
def icuParam : Param :=
  .nested "icu" [
    .scalar "beds" .pint (some (.nonnegInt "Must be >= 0")) false none,
    .nested "environment" [
      .scalar "infection_probability" .pfloat none true none],
    .scalar "dead_probability" .pfloat none true none,
    .plist "sleep_times" [
      .scalar "time" .ptime none false none,
      .scalar "probability" .pfloat none false (some "icu_sleep_times")]]

/-- The `doctors` list parameter. -/
def doctorsParam : Param :=
  .plist "doctors" [
    .scalar "specialty" .pstr none false none,
    .scalar "attention_duration" .ptime none false none]

/-- `Hospital.required_parameters`: the top-level parameter set, in the
source's textual order (the Python class stores them in a hash set whose
iteration order is unspecified). -/
def hospitalRequiredParameters : List Param :=
  [humanParam, objectsParam, patientParam, receptionParam, triageParam,
    icuParam, doctorsParam]

/-- `Hospital.required_parameters.validate(document)`. -/
def hospitalValidateParams (v : Value) : Except VErr Unit :=
  paramsValidate hospitalRequiredParameters v

/-- The parameter document built at module level at the bottom of
src/utils/builder.py (the `hospital = Hospital(50, 20, {...})` call), with
the 365-by-12 random influx matrix represented by its shape and dtype. -/
def demoDoc : Value :=
  .vdict [
    ("objects", .vdict [
      ("chair", .vdict [
        ("infect_probability", .vfloat (mkRat 1 10)),
        ("cleaning_interval", .vtime 0 2 0 0),
        ("radius", .vfloat (mkRat 1 10))]),
      ("bed", .vdict [
        ("infect_probability", .vfloat (mkRat 0 1)),
        ("radius", .vfloat (mkRat 0 1)),
        ("cleaning_interval", .vtime 0 2 0 0)])]),
    ("icu", .vdict [
      ("environment", .vdict [("infection_probability", .vfloat (mkRat 1 10))]),
      ("beds", .vint 5),
      ("dead_probability", .vfloat (mkRat 1 20)),
      ("sleep_times", .vlist [
        .vdict [("time", .vtime 1 0 0 0), ("probability", .vfloat (mkRat 1 5))],
        .vdict [("time", .vtime 2 0 0 0), ("probability", .vfloat (mkRat 1 5))],
        .vdict [("time", .vtime 4 0 0 0), ("probability", .vfloat (mkRat 1 5))],
        .vdict [("time", .vtime 8 0 0 0), ("probability", .vfloat (mkRat 1 5))],
        .vdict [("time", .vtime 16 0 0 0), ("probability", .vfloat (mkRat 1 5))]])]),
    ("reception", .vdict [("attention_time", .vtime 0 0 15 0)]),
    ("triage", .vdict [
      ("icu", .vfloat (mkRat 1 5)),
      ("doctors_probabilities", .vlist [
        .vdict [("specialty", .vstr "general_practitioner"),
          ("probability", .vfloat (mkRat 3 5))],
        .vdict [("specialty", .vstr "radiologist"),
          ("probability", .vfloat (mkRat 1 5))]]),
      ("levels", .vlist [
        .vdict [("level", .vint 1), ("probability", .vfloat (mkRat 1 5)),
          ("wait_time", .vtime 0 0 0 0)],
        .vdict [("level", .vint 2), ("probability", .vfloat (mkRat 1 5)),
          ("wait_time", .vtime 0 0 0 15)],
        .vdict [("level", .vint 3), ("probability", .vfloat (mkRat 1 5)),
          ("wait_time", .vtime 0 0 0 30)],
        .vdict [("level", .vint 4), ("probability", .vfloat (mkRat 1 5)),
          ("wait_time", .vtime 0 0 1 0)],
        .vdict [("level", .vint 5), ("probability", .vfloat (mkRat 1 5)),
          ("wait_time", .vtime 0 0 2 0)]]),
      ("attention_time", .vtime 0 0 15 0)]),
    ("doctors", .vlist [
      .vdict [("attention_duration", .vtime 0 0 30 0),
        ("specialty", .vstr "general_practitioner")],
      .vdict [("attention_duration", .vtime 0 1 0 0),
        ("specialty", .vstr "radiologist")]]),
    ("patient", .vdict [
      ("walk_speed", .vfloat (mkRat 1 5)),
      ("influx", .vmatrix [365, 12] "int64"),
      ("infected_probability", .vfloat (mkRat 1 10))]),
    ("human", .vdict [
      ("infect_distance", .vfloat (mkRat 2 1)),
      ("contamination_probability", .vfloat (mkRat 1 10)),
      ("incubation_time", .vtime 0 2 0 0),
      ("infect_probability", .vfloat (mkRat 1 5))])]

/-- A triage-only document whose `triage_levels` running sum crosses 1 at
the second levels record (3/10 then 4/5), while the third record lacks the
`probability` key entirely: a validator that only checked at the end would
report the missing key first. -/
def overflowTriageDoc : Value :=
  .vdict [("triage", .vdict [
    ("attention_time", .vtime 0 0 15 0),
    ("icu", .vfloat (mkRat 1 5)),
    ("doctors_probabilities", .vlist [
      .vdict [("specialty", .vstr "general_practitioner"),
        ("probability", .vfloat (mkRat 3 5))],
      .vdict [("specialty", .vstr "radiologist"),
        ("probability", .vfloat (mkRat 1 5))]]),
    ("levels", .vlist [
      .vdict [("level", .vint 1), ("probability", .vfloat (mkRat 3 10)),
        ("wait_time", .vtime 0 0 0 0)],
      .vdict [("level", .vint 2), ("probability", .vfloat (mkRat 4 5)),
        ("wait_time", .vtime 0 0 0 0)],
      .vdict [("level", .vint 3), ("wait_time", .vtime 0 0 0 0)]])])]

/-- A triage-only document whose `triage_levels` group sums to 3/5 < 1 while
the `triage_diagnosis` group sums exactly to 1. -/
def incompleteTriageDoc : Value :=
  .vdict [("triage", .vdict [
    ("attention_time", .vtime 0 0 15 0),
    ("icu", .vfloat (mkRat 1 5)),
    ("doctors_probabilities", .vlist [
      .vdict [("specialty", .vstr "general_practitioner"),
        ("probability", .vfloat (mkRat 3 5))],
      .vdict [("specialty", .vstr "radiologist"),
        ("probability", .vfloat (mkRat 1 5))]]),
    ("levels", .vlist [
      .vdict [("level", .vint 1), ("probability", .vfloat (mkRat 3 10)),
        ("wait_time", .vtime 0 0 0 0)],
      .vdict [("level", .vint 2), ("probability", .vfloat (mkRat 3 10)),
        ("wait_time", .vtime 0 0 0 0)]])])]

/-- The triage section of `singleLevelDoc`. -/
def singleLevelTriage : Value :=
  .vdict [
    ("icu", .vfloat (mkRat 1 5)),
    ("doctors_probabilities", .vlist [
      .vdict [("specialty", .vstr "general_practitioner"),
        ("probability", .vfloat (mkRat 3 5))],
      .vdict [("specialty", .vstr "radiologist"),
        ("probability", .vfloat (mkRat 1 5))]]),
    ("levels", .vlist [
      .vdict [("level", .vint 1), ("probability", .vfloat (mkRat 1 5)),
        ("wait_time", .vtime 0 0 0 0)]]),
    ("attention_time", .vtime 0 0 15 0)]

/-- The single record of `singleLevelTriage`'s levels list. -/
def singleLevelRecord : Value :=
  .vdict [("level", .vint 1), ("probability", .vfloat (mkRat 1 5)),
    ("wait_time", .vtime 0 0 0 0)]

/-- The demo parameter document with the `triage.levels` list replaced by a
single record of probability 1/5. -/
def singleLevelDoc : Value :=
  .vdict [
    ("objects", .vdict [
      ("chair", .vdict [
        ("infect_probability", .vfloat (mkRat 1 10)),
        ("cleaning_interval", .vtime 0 2 0 0),
        ("radius", .vfloat (mkRat 1 10))]),
      ("bed", .vdict [
        ("infect_probability", .vfloat (mkRat 0 1)),
        ("radius", .vfloat (mkRat 0 1)),
        ("cleaning_interval", .vtime 0 2 0 0)])]),
    ("icu", .vdict [
      ("environment", .vdict [("infection_probability", .vfloat (mkRat 1 10))]),
      ("beds", .vint 5),
      ("dead_probability", .vfloat (mkRat 1 20)),
      ("sleep_times", .vlist [
        .vdict [("time", .vtime 1 0 0 0), ("probability", .vfloat (mkRat 1 2))],
        .vdict [("time", .vtime 2 0 0 0),
          ("probability", .vfloat (mkRat 1 2))]])]),
    ("reception", .vdict [("attention_time", .vtime 0 0 15 0)]),
    ("triage", singleLevelTriage),
    ("doctors", .vlist [
      .vdict [("attention_duration", .vtime 0 0 30 0),
        ("specialty", .vstr "general_practitioner")],
      .vdict [("attention_duration", .vtime 0 1 0 0),
        ("specialty", .vstr "radiologist")]]),
    ("patient", .vdict [
      ("walk_speed", .vfloat (mkRat 1 5)),
      ("influx", .vmatrix [365, 12] "int64"),
      ("infected_probability", .vfloat (mkRat 1 10))]),
    ("human", .vdict [
      ("infect_distance", .vfloat (mkRat 2 1)),
      ("contamination_probability", .vfloat (mkRat 1 10)),
      ("incubation_time", .vtime 0 2 0 0),
      ("infect_probability", .vfloat (mkRat 1 5))])]

/-- `values[k]` as a pure lookup on a dict value. -/
def vGet (v : Value) (k : String) : Option Value :=
  match v with
  | .vdict es => dictLookup es k
  | _ => none

/-- A `HospitalElement` subclass instance, with the constructor arguments it
stores (coordinates as integer pairs). -/
inductive Element where
  | doctorOffice (specialty : String) (doctorLoc patientLoc : ℤ × ℤ)
  | wall (location : ℤ × ℤ)
  | chair (location : ℤ × ℤ)
  | entry (location : ℤ × ℤ)
  | exitE (location : ℤ × ℤ)
  | icu (location : ℤ × ℤ)
  | triage (patientLoc : ℤ × ℤ)
  | receptionist (receptionistLoc patientLoc : ℤ × ℤ)
deriving DecidableEq, Repr

def Element.isWallOrChair : Element → Bool
  | .wall _ => true
  | .chair _ => true
  | _ => false

/-- A `Hospital` object: dimensions, the placed elements (simulation.py keeps
a list; builder.py a set — modelled as the insertion-ordered list), and the
stored parameter document. -/
structure Hospital where
  dimensions : ℤ × ℤ
  elements : List Element
  parameters : Value

/-- The `Hospital.parameters` property setter of src/utils/builder.py: it
validates the document against `required_parameters` before storing it, and
raises on an invalid document. -/
def builderSetParameters (v : Value) : Except VErr Value :=
  match hospitalValidateParams v with
  | .error e => .error e
  | .ok () => .ok v

/-- The `Hospital.parameters` property setter of src/utils/simulation.py:
identical, except that storing `None` skips validation. -/
def simSetParameters (v : Option Value) : Except VErr (Option Value) :=
  match v with
  | none => .ok none
  | some d =>
    match hospitalValidateParams d with
    | .error e => .error e
    | .ok () => .ok (some d)

/-- `Hospital.add_element`: the only check is `issubclass(element.__class__,
HospitalElement)` — always true for an `Element` — and the element is
recorded; coordinates are never compared against the dimensions. -/
def addElement (h : Hospital) (e : Element) : Except String Hospital :=
  .ok { h with elements := h.elements ++ [e] }

/-- `d['specialty']` for a record of the `doctors` parameter list. -/
def getSpecialty : Value → Except String Value
  | .vdict es =>
    match dictLookup es "specialty" with
    | some v => .ok v
    | none => .error "KeyError: specialty"
  | _ => .error "TypeError: indices must be integers"

def getSpecialties : List Value → Except String (List Value)
  | [] => .ok []
  | d :: ds => do
    let s ← getSpecialty d
    let ss ← getSpecialties ds
    .ok (s :: ss)

/-- `doctor.specialty not in {d['specialty'] for d in parameters['doctors']}`
for a single placed doctor's specialty. -/
def checkSpecialtyPresent (params : Value) (s : String) : Except String Bool :=
  match params with
  | .vdict es =>
    match dictLookup es "doctors" with
    | some (.vlist ds) => do
      let specs ← getSpecialties ds
      .ok (specs.any (isStrEq s))
    | some _ => .error "TypeError: not a list of records"
    | none => .error "KeyError: doctors"
  | _ => .error "TypeError: indices must be integers"

def Element.doctorSpecialty : Element → Option String
  | .doctorOffice s _ _ => some s
  | _ => none

def validateDoctors (params : Value) : List String → Except String Unit
  | [] => .ok ()
  | s :: rest => do
    let present ← checkSpecialtyPresent params s
    if present then validateDoctors params rest
    else .error ("Missing parameters for doctor " ++ s)

/-- `Hospital.validate`: the only check is that every placed `DoctorOffice`
element's specialty appears among the parameter document's doctor records.
It is a standalone method: neither the parameters setter nor `save` calls
it. -/
def hospitalValidate (h : Hospital) : Except String Unit :=
  validateDoctors h.parameters (h.elements.filterMap Element.doctorSpecialty)

/-- One stored record inside the `building` section of the saved document. -/
inductive SEntry where
  | pt (loc : ℤ × ℤ)
  | doc (specialty : String) (doctorLoc patientLoc : ℤ × ℤ)
  | tri (patientLoc : ℤ × ℤ)
  | recep (receptionistLoc patientLoc : ℤ × ℤ)
deriving DecidableEq, Repr

/-- A `building` entry: unique elements store a bare location, the others a
growing list of records. -/
inductive BVal where
  | single (e : SEntry)
  | many (es : List SEntry)
deriving DecidableEq, Repr

def bLookup : List (String × BVal) → String → Option BVal
  | [], _ => none
  | e :: t, k => if e.1 = k then some e.2 else bLookup t k

def bSet : List (String × BVal) → String → BVal → List (String × BVal)
  | [], k, v => [(k, v)]
  | e :: t, k, v => if e.1 = k then (k, v) :: t else e :: bSet t k v

/-- Invariant of the `building` section during `save`: only the unique
element keys ever hold a bare location. -/
def storeInv (b : List (String × BVal)) : Prop :=
  ∀ k s, bLookup b k = some (.single s) → k = "entry" ∨ k = "exit" ∨ k = "icu"

/-- The base `HospitalElement.store` for non-unique elements (walls and
chairs): append to the existing list, and on `KeyError` evaluate
`self.location.to_dict` — an attribute `Point` does not have, so the first
wall or chair stored always raises `AttributeError`. -/
def baseStore (b : List (String × BVal)) (k : String) (e : SEntry) :
    Except String (List (String × BVal)) :=
  match bLookup b k with
  | some (.many es) => .ok (bSet b k (.many (es ++ [e])))
  | some (.single _) => .error "AttributeError: append"
  | none => .error "AttributeError: Point has no attribute to_dict"

/-- The overridden `store` of `DoctorOffice`, `Triage` and `Receptionist`:
append to the existing list, or start a fresh one-record list on
`KeyError`. -/
def overrideStore (b : List (String × BVal)) (k : String) (e : SEntry) :
    Except String (List (String × BVal)) :=
  match bLookup b k with
  | some (.many es) => .ok (bSet b k (.many (es ++ [e])))
  | some (.single _) => .error "AttributeError: append"
  | none => .ok (bSet b k (.many [e]))

/-- `element.store(data)` dispatch. -/
def storeElement (b : List (String × BVal)) : Element →
    Except String (List (String × BVal))
  | .wall loc => baseStore b "walls" (.pt loc)
  | .chair loc => baseStore b "chairs" (.pt loc)
  | .entry loc => .ok (bSet b "entry" (.single (.pt loc)))
  | .exitE loc => .ok (bSet b "exit" (.single (.pt loc)))
  | .icu loc => .ok (bSet b "icu" (.single (.pt loc)))
  | .doctorOffice s dl pl => overrideStore b "doctors" (.doc s dl pl)
  | .triage pl => overrideStore b "triages" (.tri pl)
  | .receptionist rl pl => overrideStore b "receptionists" (.recep rl pl)

def storeAll : List Element → List (String × BVal) →
    Except String (List (String × BVal))
  | [], b => .ok b
  | e :: es, b => do
    let b' ← storeElement b e
    storeAll es b'

/-- `Hospital.save` (minus the file write): build the document from an empty
`building` section and the stored parameters.  It performs no validation and
does not consult `Hospital.validate`. -/
def hospitalSave (h : Hospital) : Except String (List (String × BVal) × Value) := do
  let b ← storeAll h.elements []
  .ok (b, h.parameters)

/-- The hospital built at the bottom of src/utils/builder.py, its parameter
document replaced only in that a `DoctorOffice` with specialty `surgeon`
(absent from the document's doctors list) is placed. -/
def surgeonHospital : Hospital :=
  ⟨(50, 20), [.doctorOffice "surgeon" (2, 2) (2, 4)], demoDoc⟩

/-- A fresh 50-by-20 hospital with no elements. -/
def emptyHospital : Hospital := ⟨(50, 20), [], demoDoc⟩

/-- Two probe parameters for the traversal-order analysis. -/
def probeParamA : Param := .scalar "alpha" .pfloat none true none

def probeParamB : Param := .scalar "beta" .pfloat none true none

end Builder

namespace Plan

/-- `BuildingPlan.add`: reject negative coordinates explicitly, then assign
`self.data[x][y]`; a coordinate at or beyond the matrix extent raises a raw
`IndexError` from the list indexing (no structured bounds error). -/
def BuildingPlan.add (p : BuildingPlan) (x y : ℤ) (t : Tile) :
    Except String BuildingPlan :=
  if x < 0 ∨ y < 0 then .error "Invalid negative coordinates"
  else
    if x.toNat < p.data.length then
      if y.toNat < (p.data.getD x.toNat []).length then
        .ok ⟨p.header, p.data.set x.toNat ((p.data.getD x.toNat []).set y.toNat t)⟩
      else .error "IndexError: list assignment index out of range"
    else .error "IndexError: list index out of range"

/-- The 1-by-1 plan holding the tile produced by `Doctor(0)` (code 128). -/
def doctorPlan : BuildingPlan := ⟨⟨1, 1⟩, [[.doctor 128]]⟩

/-- The plan reconstructed by `from_bytes` from `doctorPlan`'s encoding: the
decoded Doctor object's `code` attribute is 0, not 128. -/
def doctorPlanDecoded : BuildingPlan := ⟨⟨1, 1⟩, [[.doctor 0]]⟩

end Plan

/-- Recursive view of the payload slicing of `from_bytes`. -/
def chunksOf (R : ℕ) : ℕ → List ℕ → List (List ℕ)
  | 0, _ => []
  | C + 1, l => l.take R :: chunksOf R C (l.drop R)

namespace Sim

/-- The exceptions the `SimulationProperties` setters can raise. -/
inductive SimErr where
  | invalidLayout
  | invalidSeconds
  | invalidManagerRank (role : String) (rank : ℤ) (processCount : ℤ)
deriving DecidableEq, Repr

/-- A validated `SimulationProperties` object. -/
structure SimProps where
  x : ℤ
  y : ℤ
  secondsPerTick : ℤ
  chairManager : ℤ
  receptionManager : ℤ
  triageManager : ℤ
  doctorsManager : ℤ
deriving DecidableEq, Repr

/-- `SimulationProperties.__init__`: the property setters run in order —
process layout (each axis at least 1), seconds per tick (non-negative), then
the four manager ranks, each required to lie in `[0, x*y)`. -/
def mkSimulationProperties (x y s c r t d : ℤ) : Except SimErr SimProps :=
  if x < 1 ∨ y < 1 then .error .invalidLayout
  else if s < 0 then .error .invalidSeconds
  else if ¬(0 ≤ c ∧ c < x * y) then .error (.invalidManagerRank "chair" c (x * y))
  else if ¬(0 ≤ r ∧ r < x * y) then
    .error (.invalidManagerRank "reception" r (x * y))
  else if ¬(0 ≤ t ∧ t < x * y) then .error (.invalidManagerRank "triage" t (x * y))
  else if ¬(0 ≤ d ∧ d < x * y) then
    .error (.invalidManagerRank "doctors" d (x * y))
  else .ok ⟨x, y, s, c, r, t, d⟩

end Sim

theorem exceptBind_error {ε α β : Type} (e : ε) (f : α → Except ε β) :
    (Except.error e >>= f) = Except.error e := rfl

theorem exceptBind_ok {ε α β : Type} (a : α) (f : α → Except ε β) :
    (Except.ok a >>= f) = f a := rfl

theorem ratAdd_eq_add (a b : ℚ) : Builder.ratAdd a b = a + b := by
  unfold Builder.ratAdd
  have had : ((a.den : ℚ)) ≠ 0 := Nat.cast_ne_zero.2 a.den_nz
  have hbd : ((b.den : ℚ)) ≠ 0 := Nat.cast_ne_zero.2 b.den_nz
  have ha : (a.num : ℚ) = a * (a.den : ℚ) := by
    calc (a.num : ℚ) = (a.num : ℚ) / a.den * a.den := (div_mul_cancel₀ _ had).symm
    _ = a * (a.den : ℚ) := by rw [Rat.num_div_den a]
  have hb : (b.num : ℚ) = b * (b.den : ℚ) := by
    calc (b.num : ℚ) = (b.num : ℚ) / b.den * b.den := (div_mul_cancel₀ _ hbd).symm
    _ = b * (b.den : ℚ) := by rw [Rat.num_div_den b]
  rw [Rat.mkRat_eq_div, div_eq_iff (by push_cast; exact mul_ne_zero had hbd)]
  push_cast
  rw [ha, hb]
  ring

theorem lookupAcc_addAcc_self (acc : List (String × ℚ)) (g : String) (q : ℚ) :
    Builder.lookupAcc (Builder.addAcc acc g q) g =
      some (match Builder.lookupAcc acc g with
        | some s => Builder.ratAdd s q
        | none => q) := by
  induction acc with
  | nil => simp [Builder.addAcc, Builder.lookupAcc]
  | cons e t ih =>
    by_cases he : e.1 = g
    · simp [Builder.addAcc, Builder.lookupAcc, he]
    · simp [Builder.addAcc, Builder.lookupAcc, he, ih]

theorem lookupAcc_addAcc_other (acc : List (String × ℚ)) (g g' : String)
    (q : ℚ) (h : g' ≠ g) :
    Builder.lookupAcc (Builder.addAcc acc g q) g' = Builder.lookupAcc acc g' := by
  have hgg : ¬ (g = g') := fun hx => h hx.symm
  induction acc with
  | nil => simp [Builder.addAcc, Builder.lookupAcc, hgg]
  | cons e t ih =>
    by_cases he : e.1 = g
    · simp [Builder.addAcc, Builder.lookupAcc, he, hgg, h]
    · by_cases he' : e.1 = g'
      · simp [Builder.addAcc, Builder.lookupAcc, he, he', hgg, h]
      · simp [Builder.addAcc, Builder.lookupAcc, he, he', ih]

/-- C8: constructing a `SimulationProperties` object fails with the layout
error when either axis is below 1; with the seconds error when (the layout
is valid and) the tick duration is negative; with an invalid-manager-rank
error whenever (layout and seconds being valid) any of the four manager
ranks lies outside `[0, x*y)`; and succeeds when all checks pass.  In
particular with axes (2,2) a chair-manager rank of 4 is rejected and rank 3
is accepted. -/
theorem c8_simulation_properties_validation :
    (∀ x y s c r t d : ℤ, (x < 1 ∨ y < 1) →
      Sim.mkSimulationProperties x y s c r t d = .error .invalidLayout) ∧
    (∀ x y s c r t d : ℤ, 1 ≤ x → 1 ≤ y → s < 0 →
      Sim.mkSimulationProperties x y s c r t d = .error .invalidSeconds) ∧
    (∀ x y s c r t d : ℤ, 1 ≤ x → 1 ≤ y → 0 ≤ s →
      (¬(0 ≤ c ∧ c < x * y) ∨ ¬(0 ≤ r ∧ r < x * y) ∨ ¬(0 ≤ t ∧ t < x * y) ∨
        ¬(0 ≤ d ∧ d < x * y)) →
      ∃ role rank, Sim.mkSimulationProperties x y s c r t d =
        .error (.invalidManagerRank role rank (x * y))) ∧
    (∀ x y s c r t d : ℤ, 1 ≤ x → 1 ≤ y → 0 ≤ s →
      0 ≤ c ∧ c < x * y → 0 ≤ r ∧ r < x * y → 0 ≤ t ∧ t < x * y →
      0 ≤ d ∧ d < x * y →
      Sim.mkSimulationProperties x y s c r t d = .ok ⟨x, y, s, c, r, t, d⟩) ∧
    Sim.mkSimulationProperties 2 2 60 4 0 0 0 =
      .error (.invalidManagerRank "chair" 4 4) ∧
    Sim.mkSimulationProperties 2 2 60 3 3 3 3 = .ok ⟨2, 2, 60, 3, 3, 3, 3⟩ := by
  refine ⟨?_, ?_, ?_, ?_, by decide, by decide⟩
  · intro x y s c r t d hxy
    unfold Sim.mkSimulationProperties
    rw [if_pos hxy]
  · intro x y s c r t d hx hy hs
    unfold Sim.mkSimulationProperties
    rw [if_neg (by omega), if_pos hs]
  · intro x y s c r t d hx hy hs hor
    unfold Sim.mkSimulationProperties
    rw [if_neg (by omega), if_neg (by omega)]
    by_cases hc : 0 ≤ c ∧ c < x * y
    · rw [if_neg (fun hn => hn hc)]
      by_cases hr : 0 ≤ r ∧ r < x * y
      · rw [if_neg (fun hn => hn hr)]
        by_cases ht : 0 ≤ t ∧ t < x * y
        · rw [if_neg (fun hn => hn ht)]
          by_cases hd : 0 ≤ d ∧ d < x * y
          · rcases hor with h | h | h | h <;> [exact absurd hc h;
              exact absurd hr h; exact absurd ht h; exact absurd hd h]
          · exact ⟨"doctors", d, by rw [if_pos hd]⟩
        · exact ⟨"triage", t, by rw [if_pos ht]⟩
      · exact ⟨"reception", r, by rw [if_pos hr]⟩
    · exact ⟨"chair", c, by rw [if_pos hc]⟩
  · intro x y s c r t d hx hy hs hc hr ht hd
    unfold Sim.mkSimulationProperties
    rw [if_neg (by omega), if_neg (by omega), if_neg (fun hn => hn hc),
      if_neg (fun hn => hn hr), if_neg (fun hn => hn ht), if_neg (fun hn => hn hd)]

/-- Witness for C8 at concrete layouts. -/
theorem c8_simulation_properties_validation_witness :
    Sim.mkSimulationProperties 0 2 60 0 0 0 0 = .error .invalidLayout ∧
    Sim.mkSimulationProperties 2 2 (-5) 0 0 0 0 = .error .invalidSeconds ∧
    (∃ role rank, Sim.mkSimulationProperties 2 2 60 4 0 0 0 =
      .error (.invalidManagerRank role rank (2 * 2))) ∧
    Sim.mkSimulationProperties 1 1 60 0 0 0 0 = .ok ⟨1, 1, 60, 0, 0, 0, 0⟩ := by
  refine ⟨c8_simulation_properties_validation.1 0 2 60 0 0 0 0 (by decide),
    c8_simulation_properties_validation.2.1 2 2 (-5) 0 0 0 0 (by decide)
      (by decide) (by decide),
    c8_simulation_properties_validation.2.2.1 2 2 60 4 0 0 0 (by decide)
      (by decide) (by decide) (by decide),
    c8_simulation_properties_validation.2.2.2.1 1 1 60 0 0 0 0 (by decide)
      (by decide) (by decide) (by decide) (by decide) (by decide) (by decide)⟩

/-- C4: the claim that storing a candidate parameter document performs no
validation is false on the code: both property setters validate the
document against `required_parameters` immediately, so storing an invalid
document (here the empty dict) raises instead of succeeding. -/
theorem c4_counterexample_set_parameters_validates :
    Builder.builderSetParameters (.vdict []) =
      .error (.missingParameter "human") ∧
    Builder.simSetParameters (some (.vdict [])) =
      .error (.missingParameter "human") := ⟨rfl, rfl⟩

/-- C4 amended: assigning `Hospital.parameters` validates the document
against the schema immediately — it succeeds exactly on schema-valid
documents and propagates the validator's error otherwise (the simulation.py
setter additionally stores `None` without validating). -/
theorem c4_amended_set_parameters_validates_immediately :
    (∀ v : Builder.Value, Builder.hospitalValidateParams v = .ok () →
      Builder.builderSetParameters v = .ok v) ∧
    (∀ (v : Builder.Value) (e : Builder.VErr),
      Builder.hospitalValidateParams v = .error e →
      Builder.builderSetParameters v = .error e) ∧
    (∀ v : Builder.Value, Builder.hospitalValidateParams v = .ok () →
      Builder.simSetParameters (some v) = .ok (some v)) ∧
    (∀ (v : Builder.Value) (e : Builder.VErr),
      Builder.hospitalValidateParams v = .error e →
      Builder.simSetParameters (some v) = .error e) ∧
    Builder.simSetParameters none = .ok none := by
  refine ⟨?_, ?_, ?_, ?_, rfl⟩ <;> intro v h <;>
    first
      | (intro he
         simp [Builder.builderSetParameters, Builder.simSetParameters, he])
      | simp [Builder.builderSetParameters, Builder.simSetParameters, h]

/-- Witness for C4 amended: the module-level demo document is accepted, the
empty document is rejected. -/
theorem c4_amended_witness :
    Builder.builderSetParameters Builder.demoDoc = .ok Builder.demoDoc ∧
    Builder.builderSetParameters (.vdict []) =
      .error (.missingParameter "human") :=
  ⟨c4_amended_set_parameters_validates_immediately.1 Builder.demoDoc (by decide),
    c4_amended_set_parameters_validates_immediately.2.1 (.vdict [])
      (.missingParameter "human") rfl⟩

/-- C6: the claim that out-of-bounds placement fails is false on the code:
`Hospital.add_element` performs no bounds check, so a wall at (100,100) is
recorded in the 50-by-20 hospital without error. -/
theorem c6_counterexample_out_of_bounds_placement_recorded :
    Builder.addElement Builder.emptyHospital (.wall (100, 100)) =
      .ok ⟨(50, 20), [.wall (100, 100)], Builder.demoDoc⟩ ∧
    ¬((100 : ℤ) < 50 ∧ (100 : ℤ) < 20) := ⟨rfl, by decide⟩

/-- C6 amended: `Hospital.add_element` records every element unconditionally
(its only check, the `HospitalElement` subclass test, always holds for an
element value); `BuildingPlan.add` rejects only negative coordinates with
its structured message, while a coordinate at or beyond the grid extent
raises a raw `IndexError` carrying no coordinates, and in-bounds placement
updates the cell. -/
theorem c6_amended_no_bounds_check_on_add :
    (∀ (h : Builder.Hospital) (e : Builder.Element),
      Builder.addElement h e = .ok { h with elements := h.elements ++ [e] }) ∧
    (∀ (p : Plan.BuildingPlan) (x y : ℤ) (t : Plan.Tile), (x < 0 ∨ y < 0) →
      Plan.BuildingPlan.add p x y t = .error "Invalid negative coordinates") ∧
    (∀ (p : Plan.BuildingPlan) (x y : ℤ) (t : Plan.Tile), 0 ≤ x → 0 ≤ y →
      p.data.length ≤ x.toNat →
      Plan.BuildingPlan.add p x y t =
        .error "IndexError: list index out of range") ∧
    (∀ (p : Plan.BuildingPlan) (x y : ℤ) (t : Plan.Tile), 0 ≤ x → 0 ≤ y →
      x.toNat < p.data.length → (p.data.getD x.toNat []).length ≤ y.toNat →
      Plan.BuildingPlan.add p x y t =
        .error "IndexError: list assignment index out of range") ∧
    (∀ (p : Plan.BuildingPlan) (x y : ℤ) (t : Plan.Tile), 0 ≤ x → 0 ≤ y →
      x.toNat < p.data.length → y.toNat < (p.data.getD x.toNat []).length →
      Plan.BuildingPlan.add p x y t =
        .ok ⟨p.header, p.data.set x.toNat
          ((p.data.getD x.toNat []).set y.toNat t)⟩) := by
  refine ⟨fun h e => rfl, ?_, ?_, ?_, ?_⟩
  · intro p x y t hxy
    unfold Plan.BuildingPlan.add
    rw [if_pos hxy]
  · intro p x y t hx hy hbound
    unfold Plan.BuildingPlan.add
    rw [if_neg (by omega), if_neg (by omega)]
  · intro p x y t hx hy hin hbound
    unfold Plan.BuildingPlan.add
    rw [if_neg (by omega), if_pos hin, if_neg (by omega)]
  · intro p x y t hx hy hin hin'
    unfold Plan.BuildingPlan.add
    rw [if_neg (by omega), if_pos hin, if_pos hin']

/-- Witness for C6 amended on a 2-by-2 plan and the 50-by-20 hospital. -/
theorem c6_amended_witness :
    Builder.addElement Builder.emptyHospital (.wall (100, 100)) =
      .ok { Builder.emptyHospital with
        elements := Builder.emptyHospital.elements ++ [.wall (100, 100)] } ∧
    Plan.BuildingPlan.add (Plan.BuildingPlan.init 2 2) (-1) 0 .wall =
      .error "Invalid negative coordinates" ∧
    Plan.BuildingPlan.add (Plan.BuildingPlan.init 2 2) 5 0 .wall =
      .error "IndexError: list index out of range" ∧
    Plan.BuildingPlan.add (Plan.BuildingPlan.init 2 2) 0 5 .wall =
      .error "IndexError: list assignment index out of range" := by
  refine ⟨c6_amended_no_bounds_check_on_add.1 Builder.emptyHospital _,
    c6_amended_no_bounds_check_on_add.2.1 _ (-1) 0 _ (by decide),
    c6_amended_no_bounds_check_on_add.2.2.1 _ 5 0 _ (by decide) (by decide)
      (by decide),
    c6_amended_no_bounds_check_on_add.2.2.2.1 _ 0 5 _ (by decide) (by decide)
      (by decide) (by decide)⟩

/-- C7: the claim of run-to-run deterministic traversal is false on the
code: the parameter sets are Python hash sets with unspecified iteration
order, and two orders of the same two-parameter set produce different first
errors on the same (empty) document. -/
theorem c7_counterexample_order_dependent_first_error :
    [Builder.probeParamA, Builder.probeParamB].Perm
      [Builder.probeParamB, Builder.probeParamA] ∧
    Builder.paramsValidate [Builder.probeParamA, Builder.probeParamB]
      (.vdict []) = .error (.missingParameter "alpha") ∧
    Builder.paramsValidate [Builder.probeParamB, Builder.probeParamA]
      (.vdict []) = .error (.missingParameter "beta") ∧
    Builder.VErr.missingParameter "alpha" ≠ .missingParameter "beta" :=
  ⟨List.Perm.swap _ _ _, rfl, rfl, by decide⟩

/-- C7 amended: for one fixed iteration order of every parameter set the
embedded validator is a deterministic function of the schema and document —
two runs on the same inputs yield the identical result (and hence the
identical first error); the source does not pin that order down. -/
theorem c7_amended_determinism_for_fixed_order :
    ∀ (ps : List Builder.Param) (d : Builder.Value)
      (r₁ r₂ : Except Builder.VErr Unit),
      Builder.paramsValidate ps d = r₁ → Builder.paramsValidate ps d = r₂ →
      r₁ = r₂ := by
  intro ps d r₁ r₂ h₁ h₂
  rw [← h₁, ← h₂]

/-- Witness for C7 amended at the full schema and demo document. -/
theorem c7_amended_witness :
    Builder.paramsValidate Builder.hospitalRequiredParameters Builder.demoDoc =
      .ok () :=
  c7_amended_determinism_for_fixed_order Builder.hospitalRequiredParameters
    Builder.demoDoc _ (.ok ()) rfl (by decide)

theorem bLookup_bSet (b : List (String × Builder.BVal)) (k k' : String)
    (v : Builder.BVal) :
    Builder.bLookup (Builder.bSet b k v) k' =
      if k = k' then some v else Builder.bLookup b k' := by
  induction b with
  | nil => by_cases h : k = k' <;> simp [Builder.bSet, Builder.bLookup, h]
  | cons e t ih =>
    by_cases he : e.1 = k
    · by_cases hk : k = k' <;> simp [Builder.bSet, Builder.bLookup, he, hk]
    · have step : Builder.bSet (e :: t) k v = e :: Builder.bSet t k v := by
        simp [Builder.bSet, he]
      rw [step]
      by_cases he' : e.1 = k'
      · have hk : ¬ k = k' := fun hx => he (by rw [he', ← hx])
        simp [Builder.bLookup, he', hk]
      · simp [Builder.bLookup, he', ih]

theorem storeInv_setSingle (b : List (String × Builder.BVal)) (k : String)
    (v : Builder.SEntry) (hb : Builder.storeInv b)
    (hk : k = "entry" ∨ k = "exit" ∨ k = "icu") :
    Builder.storeInv (Builder.bSet b k (.single v)) := by
  intro k' s h
  rw [bLookup_bSet] at h
  by_cases hkk : k = k'
  · exact hkk ▸ hk
  · rw [if_neg hkk] at h
    exact hb k' s h

theorem storeInv_setMany (b : List (String × Builder.BVal)) (k : String)
    (es : List Builder.SEntry) (hb : Builder.storeInv b) :
    Builder.storeInv (Builder.bSet b k (.many es)) := by
  intro k' s h
  rw [bLookup_bSet] at h
  by_cases hkk : k = k'
  · rw [if_pos hkk] at h
    exact absurd (Option.some.inj h) (by intro hx; exact Builder.BVal.noConfusion hx)
  · rw [if_neg hkk] at h
    exact hb k' s h

theorem overrideStore_ok (b : List (String × Builder.BVal)) (k : String)
    (e : Builder.SEntry) (hk : ¬(k = "entry" ∨ k = "exit" ∨ k = "icu"))
    (hb : Builder.storeInv b) :
    ∃ b', Builder.overrideStore b k e = .ok b' ∧ Builder.storeInv b' := by
  cases hl : Builder.bLookup b k with
  | none =>
    exact ⟨_, by simp [Builder.overrideStore, hl], storeInv_setMany b k [e] hb⟩
  | some bv =>
    cases bv with
    | single s => exact absurd (hb k s hl) hk
    | many es =>
      exact ⟨_, by simp [Builder.overrideStore, hl],
        storeInv_setMany b k (es ++ [e]) hb⟩

theorem storeElement_ok (e : Builder.Element)
    (he : e.isWallOrChair = false) (b : List (String × Builder.BVal))
    (hb : Builder.storeInv b) :
    ∃ b', Builder.storeElement b e = .ok b' ∧ Builder.storeInv b' := by
  cases e with
  | wall l => simp [Builder.Element.isWallOrChair] at he
  | chair l => simp [Builder.Element.isWallOrChair] at he
  | entry l =>
    exact ⟨_, rfl, storeInv_setSingle b "entry" (.pt l) hb (by decide)⟩
  | exitE l =>
    exact ⟨_, rfl, storeInv_setSingle b "exit" (.pt l) hb (by decide)⟩
  | icu l =>
    exact ⟨_, rfl, storeInv_setSingle b "icu" (.pt l) hb (by decide)⟩
  | doctorOffice s dl pl =>
    exact overrideStore_ok b "doctors" (.doc s dl pl) (by decide) hb
  | triage pl =>
    exact overrideStore_ok b "triages" (.tri pl) (by decide) hb
  | receptionist rl pl =>
    exact overrideStore_ok b "receptionists" (.recep rl pl) (by decide) hb

theorem storeAll_ok :
    ∀ (es : List Builder.Element) (b : List (String × Builder.BVal)),
      (∀ e ∈ es, Builder.Element.isWallOrChair e = false) →
      Builder.storeInv b →
      ∃ b', Builder.storeAll es b = .ok b' ∧ Builder.storeInv b' := by
  intro es
  induction es with
  | nil => exact fun b _ hb => ⟨b, rfl, hb⟩
  | cons e t ih =>
    intro b hno hb
    obtain ⟨b1, hb1, hinv1⟩ :=
      storeElement_ok e (hno e (List.mem_cons_self e t)) b hb
    obtain ⟨b2, hb2, hinv2⟩ :=
      ih b1 (fun x hx => hno x (List.mem_cons_of_mem _ hx)) hinv1
    exact ⟨b2, by simp only [Builder.storeAll, hb1]; exact hb2, hinv2⟩

/-- C5: the claim that serialization fails without a prior successful
`validate()` is false on the code: `Hospital.save` never consults
`validate`.  The hospital holding a placed surgeon office whose specialty
has no record in the parameter document fails `validate()`, yet `save`
serializes it successfully. -/
theorem c5_counterexample_save_without_validate :
    Builder.hospitalValidate Builder.surgeonHospital =
      .error "Missing parameters for doctor surgeon" ∧
    Builder.hospitalSave Builder.surgeonHospital =
      .ok ([("doctors", .many [.doc "surgeon" (2, 2) (2, 4)])],
        Builder.demoDoc) := ⟨rfl, rfl⟩

/-- C5 amended: `Hospital.save` performs no validation-state check at all —
for every hospital whose elements avoid the walls/chairs whose inherited
`store` method is broken (`Point.to_dict` does not exist), serialization
succeeds regardless of whether `validate()` would fail. -/
theorem c5_amended_save_never_requires_validate :
    ∀ h : Builder.Hospital,
      (∀ e ∈ h.elements, Builder.Element.isWallOrChair e = false) →
      ∃ out, Builder.hospitalSave h = .ok out := by
  intro h hno
  obtain ⟨b', hb', _⟩ := storeAll_ok h.elements [] hno
    (fun k s hk => by simp [Builder.bLookup] at hk)
  exact ⟨(b', h.parameters), by simp only [Builder.hospitalSave, hb']; rfl⟩

/-- Witness for C5 amended: the surgeon hospital — which fails
`validate()` — is serialized successfully. -/
theorem c5_amended_witness :
    Builder.hospitalValidate Builder.surgeonHospital =
      .error "Missing parameters for doctor surgeon" ∧
    ∃ out, Builder.hospitalSave Builder.surgeonHospital = .ok out :=
  ⟨rfl, c5_amended_save_never_requires_validate Builder.surgeonHospital
    (by decide)⟩

theorem pvalidate_scalar_float_group (n : ℕ) (pref : Option (String × Bool))
    (key : String) (prob : Bool) (g : String)
    (entries : List (String × Builder.Value)) (q : ℚ) (acc : List (String × ℚ))
    (hlk : Builder.dictLookup entries key = some (.vfloat q))
    (h0 : 0 ≤ q) (h1 : q < 1) :
    Builder.pvalidate (n + 1) pref (.scalar key .pfloat none prob (some g))
      (.vdict entries) acc =
      (if 1 < (Builder.lookupAcc (Builder.addAcc acc g q) g).getD 0
       then .error (.groupOverflow g)
       else .ok (Builder.addAcc acc g q)) := by
  have h01 : 0 ≤ q ∧ q < 1 := ⟨h0, h1⟩
  have step1 : Builder.pvalidate (n + 1) pref
      (.scalar key .pfloat none prob (some g)) (.vdict entries) acc =
      Builder.scalarChecks (Builder.fkOf pref key) (.vfloat q) none prob
        (some g) acc := by
    simp [Builder.pvalidate, Builder.Value.isListOrDict, Builder.keyIn,
      Builder.getItem, hlk, Builder.typeMatches, exceptBind_ok]
  rw [step1]
  by_cases hov : 1 < (Builder.lookupAcc (Builder.addAcc acc g q) g).getD 0
  · rw [if_pos hov]
    cases prob <;>
      simp [Builder.scalarChecks, Builder.probCheck, Builder.groupAdd,
        Builder.customCheck, Builder.Value.asRat, h01, gt_iff_lt, hov,
        exceptBind_ok, exceptBind_error]
  · rw [if_neg hov]
    cases prob <;>
      simp [Builder.scalarChecks, Builder.probCheck, Builder.groupAdd,
        Builder.customCheck, Builder.Value.asRat, h01, gt_iff_lt, hov,
        exceptBind_ok, exceptBind_error]

theorem finalCheck_error_of_mem_lt (acc : List (String × ℚ)) :
    (∃ en ∈ acc, en.2 < 1) →
    ∃ g s, Builder.finalCheck acc = .error (.groupIncomplete g s) ∧ s < 1 := by
  induction acc with
  | nil => rintro ⟨en, h, _⟩; exact absurd h (List.not_mem_nil en)
  | cons e t ih =>
    rintro ⟨en, hmem, hlt⟩
    by_cases he : e.2 < 1
    · exact ⟨e.1, e.2, by simp [Builder.finalCheck, he], he⟩
    · rcases List.mem_cons.1 hmem with h | h
      · exact absurd (h ▸ hlt) he
      · obtain ⟨g, s, hfc, hs⟩ := ih ⟨en, h, hlt⟩
        exact ⟨g, s, by simp [Builder.finalCheck, he, hfc], hs⟩

theorem finalCheck_ok_of_all_ge (acc : List (String × ℚ)) :
    (∀ en ∈ acc, 1 ≤ en.2) → Builder.finalCheck acc = .ok () := by
  induction acc with
  | nil => intro _; rfl
  | cons e t ih =>
    intro hall
    have he : ¬ e.2 < 1 := not_lt.2 (hall e (List.mem_cons_self e t))
    simp [Builder.finalCheck, he,
      ih (fun x hx => hall x (List.mem_cons_of_mem _ hx))]

/-- C2: probability-group accumulation.  A group node whose running sum
would cross 1 fails immediately with the overflow error, regardless of any
siblings still unvisited; if the walk succeeds and any accumulated group is
below 1, validation fails with an incomplete-group error for a group below
1; if every accumulated group reached 1, the group checks pass.  Concretely
on the source's triage schema: levels probabilities 3/10 then 4/5 overflow
at the second record even though the third record is missing its
probability key; 3/10 and 3/10 yield the incomplete error with sum 3/5; and
the module-level demo document, whose three groups each sum exactly to 1
across scalar and list-of-records nodes, validates successfully. -/
theorem c2_probability_group_accumulation :
    (∀ (key g : String) (prob : Bool) (rest : List Builder.Param)
      (entries : List (String × Builder.Value)) (q s : ℚ)
      (acc : List (String × ℚ)),
      Builder.dictLookup entries key = some (.vfloat q) → 0 ≤ q → q < 1 →
      Builder.lookupAcc acc g = some s → 1 < s + q →
      Builder.validateAll (Builder.pvalidate 8 none)
        (.scalar key .pfloat none prob (some g) :: rest) (.vdict entries) acc =
        .error (.groupOverflow g)) ∧
    (∀ (ps : List Builder.Param) (d : Builder.Value) (acc : List (String × ℚ)),
      Builder.validateAll (Builder.pvalidate 8 none) ps d [] = .ok acc →
      (∃ en ∈ acc, en.2 < 1) →
      ∃ g s, Builder.paramsValidate ps d = .error (.groupIncomplete g s) ∧
        s < 1) ∧
    (∀ (ps : List Builder.Param) (d : Builder.Value) (acc : List (String × ℚ)),
      Builder.validateAll (Builder.pvalidate 8 none) ps d [] = .ok acc →
      (∀ en ∈ acc, 1 ≤ en.2) →
      Builder.paramsValidate ps d = .ok ()) ∧
    Builder.paramsValidate [Builder.triageParam] Builder.overflowTriageDoc =
      .error (.groupOverflow "triage_levels") ∧
    Builder.paramsValidate [Builder.triageParam] Builder.incompleteTriageDoc =
      .error (.groupIncomplete "triage_levels" (mkRat 3 5)) ∧
    Builder.hospitalValidateParams Builder.demoDoc = .ok () := by
  refine ⟨?_, ?_, ?_, by decide, by decide, by decide⟩
  · intro key g prob rest entries q s acc hlk h0 h1 hs hsum
    have hov : 1 < (Builder.lookupAcc (Builder.addAcc acc g q) g).getD 0 := by
      rw [lookupAcc_addAcc_self, hs]
      simpa [ratAdd_eq_add] using hsum
    have hval := pvalidate_scalar_float_group 7 none key prob g entries q acc
      hlk h0 h1
    rw [if_pos hov] at hval
    simp only [Builder.validateAll]
    rw [show (8 : ℕ) = 7 + 1 from rfl, hval]
    rfl
  · intro ps d acc hall hlt
    obtain ⟨g, s, hfc, hs⟩ := finalCheck_error_of_mem_lt acc hlt
    refine ⟨g, s, ?_, hs⟩
    simp only [Builder.paramsValidate, hall]
    exact hfc
  · intro ps d acc hall hge
    simp only [Builder.paramsValidate, hall]
    exact finalCheck_ok_of_all_ge acc hge

/-- Witness for C2 at a concrete overflowing node: group G already holds
3/4, the node adds 1/2, and validation fails immediately with the overflow
error although a sibling with an unsatisfiable range check follows. -/
theorem c2_probability_group_accumulation_witness :
    Builder.validateAll (Builder.pvalidate 8 none)
      [.scalar "p" .pfloat none false (some "G"),
        .scalar "q" .pfloat none true none]
      (.vdict [("p", .vfloat (mkRat 1 2))]) [("G", mkRat 3 4)] =
      .error (.groupOverflow "G") :=
  c2_probability_group_accumulation.1 "p" "G" false
    [.scalar "q" .pfloat none true none] [("p", .vfloat (mkRat 1 2))]
    (mkRat 1 2) (mkRat 3 4) [("G", mkRat 3 4)] rfl (by decide) (by decide)
    rfl (by rw [show (mkRat 3 4 : ℚ) + mkRat 1 2 = Builder.ratAdd (mkRat 3 4) (mkRat 1 2) from (ratAdd_eq_add _ _).symm]; decide)

theorem groupAdd_acc_inv (fk : String) (w : Builder.Value)
    (pg : Option String) (acc acc' : List (String × ℚ))
    (h : Builder.groupAdd fk w pg acc = .ok acc') :
    acc' = acc ∨ ∃ g' q', pg = some g' ∧ acc' = Builder.addAcc acc g' q' := by
  cases pg with
  | none =>
    left
    simp only [Builder.groupAdd] at h
    exact (Except.ok.inj h).symm
  | some g' =>
    right
    simp only [Builder.groupAdd] at h
    cases hw : w.asRat with
    | none =>
      rw [hw] at h
      have h' : (Except.error (Builder.VErr.comparisonTypeError fk) :
          Except Builder.VErr (List (String × ℚ))) = .ok acc' := h
      exact absurd h' (by simp)
    | some q' =>
      rw [hw] at h
      have h' : (if (Builder.lookupAcc (Builder.addAcc acc g' q') g').getD 0 > 1
          then (Except.error (Builder.VErr.groupOverflow g') :
            Except Builder.VErr (List (String × ℚ)))
          else .ok (Builder.addAcc acc g' q')) = .ok acc' := h
      refine ⟨g', q', rfl, ?_⟩
      by_cases hov : (Builder.lookupAcc (Builder.addAcc acc g' q') g').getD 0 > 1
      · rw [if_pos hov] at h'
        exact absurd h' (by simp)
      · rw [if_neg hov] at h'
        exact (Except.ok.inj h').symm

theorem scalarChecks_acc_inv (fk : String) (w : Builder.Value)
    (cv : Option Builder.CustomV) (prob : Bool) (pg : Option String)
    (acc acc' : List (String × ℚ))
    (h : Builder.scalarChecks fk w cv prob pg acc = .ok acc') :
    acc' = acc ∨ ∃ g' q', pg = some g' ∧ acc' = Builder.addAcc acc g' q' := by
  simp only [Builder.scalarChecks] at h
  cases hp : Builder.probCheck fk w (prob || pg.isSome) with
  | error e => rw [hp, exceptBind_error] at h; exact Except.noConfusion h
  | ok u =>
    cases u
    rw [hp, exceptBind_ok] at h
    cases hg : Builder.groupAdd fk w pg acc with
    | error e => rw [hg, exceptBind_error] at h; exact Except.noConfusion h
    | ok a =>
      rw [hg, exceptBind_ok] at h
      cases hc : Builder.customCheck fk w cv with
      | error e => rw [hc, exceptBind_error] at h; exact Except.noConfusion h
      | ok u' =>
        cases u'
        rw [hc, exceptBind_ok] at h
        rw [← Except.ok.inj h]
        exact groupAdd_acc_inv fk w pg acc a hg

theorem pvalidate_scalar_acc_inv (n : ℕ) (pref : Option (String × Bool))
    (key : String) (ty : Builder.PType) (cv : Option Builder.CustomV)
    (prob : Bool) (pg : Option String) (v : Builder.Value)
    (acc acc' : List (String × ℚ))
    (h : Builder.pvalidate (n + 1) pref (.scalar key ty cv prob pg) v acc =
      .ok acc') :
    acc' = acc ∨ ∃ g' q', pg = some g' ∧ acc' = Builder.addAcc acc g' q' := by
  simp only [Builder.pvalidate] at h
  split at h
  · exact Except.noConfusion h
  · split at h
    · exact Except.noConfusion h
    · cases hg : Builder.getItem v key (Builder.fkOf pref key) with
      | error e => rw [hg, exceptBind_error] at h; exact Except.noConfusion h
      | ok w =>
        rw [hg, exceptBind_ok] at h
        split at h
        · exact Except.noConfusion h
        · exact scalarChecks_acc_inv _ w cv prob pg acc acc' h

theorem pvalidate_nested_inv (n : ℕ) (pref : Option (String × Bool))
    (key : String) (children : List Builder.Param) (v : Builder.Value)
    (acc acc' : List (String × ℚ))
    (h : Builder.pvalidate (n + 1) pref (.nested key children) v acc = .ok acc') :
    ∃ w, Builder.getItem v key (Builder.fkOf pref key) = .ok w ∧
      Builder.validateChildren
        (Builder.pvalidate n (some (Builder.fkOf pref key, false)))
        children key w acc = .ok acc' := by
  simp only [Builder.pvalidate] at h
  split at h
  · exact Except.noConfusion h
  · split at h
    · exact Except.noConfusion h
    · cases hg : Builder.getItem v key (Builder.fkOf pref key) with
      | error e => rw [hg, exceptBind_error] at h; exact Except.noConfusion h
      | ok w =>
        rw [hg, exceptBind_ok] at h
        exact ⟨w, rfl, h⟩

theorem pvalidate_plist_inv (n : ℕ) (pref : Option (String × Bool))
    (key : String) (children : List Builder.Param) (v : Builder.Value)
    (acc acc' : List (String × ℚ))
    (h : Builder.pvalidate (n + 1) pref (.plist key children) v acc = .ok acc') :
    ∃ elems, Builder.getItem v key (Builder.fkOf pref key) = .ok (.vlist elems) ∧
      elems.length ≠ 0 ∧
      Builder.validateElems
        (Builder.pvalidate n (some (Builder.fkOf pref key, true)))
        children elems acc = .ok acc' := by
  simp only [Builder.pvalidate] at h
  split at h
  · exact Except.noConfusion h
  · split at h
    · exact Except.noConfusion h
    · cases hg : Builder.getItem v key (Builder.fkOf pref key) with
      | error e => rw [hg, exceptBind_error] at h; exact Except.noConfusion h
      | ok w =>
        rw [hg, exceptBind_ok] at h
        cases w with
        | vlist elems =>
          have h' : (if elems.length = 0
              then (Except.error (Builder.VErr.emptyList (Builder.fkOf pref key)) :
                Except Builder.VErr (List (String × ℚ)))
              else Builder.validateElems
                (Builder.pvalidate n (some (Builder.fkOf pref key, true)))
                children elems acc) = .ok acc' := h
          by_cases hlen : elems.length = 0
          · rw [if_pos hlen] at h'
            exact Except.noConfusion h'
          · rw [if_neg hlen] at h'
            exact ⟨elems, rfl, hlen, h'⟩
        | vfloat q => exact Except.noConfusion h
        | vint m => exact Except.noConfusion h
        | vstr s => exact Except.noConfusion h
        | vtime a b c d => exact Except.noConfusion h
        | vmatrix a b => exact Except.noConfusion h
        | vdict es => exact Except.noConfusion h

theorem validateAll_preserves (g : String)
    (f : Builder.Param → Builder.Value → List (String × ℚ) →
      Except Builder.VErr (List (String × ℚ)))
    (ps : List Builder.Param)
    (Hf : ∀ p ∈ ps, ∀ v acc acc', f p v acc = .ok acc' →
      Builder.lookupAcc acc' g = Builder.lookupAcc acc g) :
    ∀ v acc acc', Builder.validateAll f ps v acc = .ok acc' →
      Builder.lookupAcc acc' g = Builder.lookupAcc acc g := by
  induction ps with
  | nil =>
    intro v acc acc' h
    simp only [Builder.validateAll] at h
    rw [← Except.ok.inj h]
  | cons p ps ih =>
    intro v acc acc' h
    simp only [Builder.validateAll] at h
    cases hp : f p v acc with
    | error e => rw [hp, exceptBind_error] at h; exact Except.noConfusion h
    | ok a1 =>
      rw [hp, exceptBind_ok] at h
      rw [ih (fun p' hp' => Hf p' (List.mem_cons_of_mem _ hp')) v a1 acc' h]
      exact Hf p (List.mem_cons_self p ps) v acc a1 hp

theorem validateElems_preserves (g : String)
    (f : Builder.Param → Builder.Value → List (String × ℚ) →
      Except Builder.VErr (List (String × ℚ)))
    (children : List Builder.Param)
    (Hf : ∀ p ∈ children, ∀ v acc acc', f p v acc = .ok acc' →
      Builder.lookupAcc acc' g = Builder.lookupAcc acc g) :
    ∀ es acc acc', Builder.validateElems f children es acc = .ok acc' →
      Builder.lookupAcc acc' g = Builder.lookupAcc acc g := by
  intro es
  induction es with
  | nil =>
    intro acc acc' h
    simp only [Builder.validateElems] at h
    rw [← Except.ok.inj h]
  | cons e es ih =>
    intro acc acc' h
    simp only [Builder.validateElems] at h
    cases hp : Builder.validateAll f children e acc with
    | error err => rw [hp, exceptBind_error] at h; exact Except.noConfusion h
    | ok a1 =>
      rw [hp, exceptBind_ok] at h
      rw [ih a1 acc' h]
      exact validateAll_preserves g f children Hf e acc a1 hp

theorem validateChildren_preserves (g : String)
    (f : Builder.Param → Builder.Value → List (String × ℚ) →
      Except Builder.VErr (List (String × ℚ)))
    (ps : List Builder.Param)
    (Hf : ∀ p ∈ ps, ∀ v acc acc', f p v acc = .ok acc' →
      Builder.lookupAcc acc' g = Builder.lookupAcc acc g) :
    ∀ pk v acc acc', Builder.validateChildren f ps pk v acc = .ok acc' →
      Builder.lookupAcc acc' g = Builder.lookupAcc acc g := by
  induction ps with
  | nil =>
    intro pk v acc acc' h
    simp only [Builder.validateChildren] at h
    rw [← Except.ok.inj h]
  | cons p ps ih =>
    intro pk v acc acc' h
    simp only [Builder.validateChildren] at h
    split at h
    · exact Except.noConfusion h
    · cases hp : f p v acc with
      | error e => rw [hp, exceptBind_error] at h; exact Except.noConfusion h
      | ok a1 =>
        rw [hp, exceptBind_ok] at h
        rw [ih (fun p' hp' => Hf p' (List.mem_cons_of_mem _ hp')) pk v a1 acc' h]
        exact Hf p (List.mem_cons_self p ps) v acc a1 hp

/-- A parameter subtree holding no scalar node of group `g` leaves the
accumulator entry of `g` unchanged whenever its validation succeeds. -/
theorem pvalidate_preserves (g : String) :
    ∀ (n : ℕ) (pref : Option (String × Bool)) (p : Builder.Param)
      (v : Builder.Value) (acc acc' : List (String × ℚ)),
      Builder.groupFreeF n p g = true →
      Builder.pvalidate n pref p v acc = .ok acc' →
      Builder.lookupAcc acc' g = Builder.lookupAcc acc g := by
  intro n
  induction n with
  | zero =>
    intro pref p v acc acc' hfree h
    exact absurd h (by simp [Builder.pvalidate])
  | succ n ih =>
    intro pref p v acc acc' hfree h
    cases p with
    | scalar key ty cv prob pg =>
      have hne : pg ≠ some g := by
        have := hfree
        simp only [Builder.groupFreeF] at this
        exact of_decide_eq_true this
      rcases pvalidate_scalar_acc_inv n pref key ty cv prob pg v acc acc' h with
        hacc | ⟨g', q', hpg, hacc⟩
      · rw [hacc]
      · have hgg : g ≠ g' := fun hx => hne (by rw [hpg, hx])
        rw [hacc]
        exact lookupAcc_addAcc_other acc g' g q' hgg
    | nested key children =>
      have hall : ∀ p' ∈ children, Builder.groupFreeF n p' g = true := by
        have := hfree
        simp only [Builder.groupFreeF, List.all_eq_true] at this
        exact this
      obtain ⟨w, hw, hvc⟩ := pvalidate_nested_inv n pref key children v acc acc' h
      exact validateChildren_preserves g _ children
        (fun p' hp' v' acc₀ acc₁ h' =>
          ih (some (Builder.fkOf pref key, false)) p' v' acc₀ acc₁
            (hall p' hp') h')
        key w acc acc' hvc
    | plist key children =>
      have hall : ∀ p' ∈ children, Builder.groupFreeF n p' g = true := by
        have := hfree
        simp only [Builder.groupFreeF, List.all_eq_true] at this
        exact this
      obtain ⟨elems, hw, hne, hve⟩ :=
        pvalidate_plist_inv n pref key children v acc acc' h
      exact validateElems_preserves g _ children
        (fun p' hp' v' acc₀ acc₁ h' =>
          ih (some (Builder.fkOf pref key, true)) p' v' acc₀ acc₁
            (hall p' hp') h')
        elems acc acc' hve

/-- A successful float scalar node of group `g` (no custom validator)
contributes exactly one probability in `[0,1)` to the accumulator. -/
theorem pvalidate_scalar_pfloat_group_ok (n : ℕ) (pref : Option (String × Bool))
    (key : String) (prob : Bool) (g : String) (v : Builder.Value)
    (acc acc' : List (String × ℚ))
    (h : Builder.pvalidate (n + 1) pref (.scalar key .pfloat none prob (some g))
      v acc = .ok acc') :
    ∃ q, 0 ≤ q ∧ q < 1 ∧ acc' = Builder.addAcc acc g q := by
  simp only [Builder.pvalidate] at h
  split at h
  · exact Except.noConfusion h
  · split at h
    · exact Except.noConfusion h
    · cases hg : Builder.getItem v key (Builder.fkOf pref key) with
      | error e => rw [hg, exceptBind_error] at h; exact Except.noConfusion h
      | ok w =>
        rw [hg, exceptBind_ok] at h
        split at h
        · exact Except.noConfusion h
        · rename_i hty
          cases w with
          | vfloat q =>
            simp only [Builder.scalarChecks] at h
            cases hp : Builder.probCheck (Builder.fkOf pref key) (.vfloat q)
                (prob || (some g).isSome) with
            | error e =>
              rw [hp, exceptBind_error] at h
              exact Except.noConfusion h
            | ok u =>
              cases u
              rw [hp, exceptBind_ok] at h
              have hq : 0 ≤ q ∧ q < 1 := by
                have hp' : (if 0 ≤ q ∧ q < 1
                    then (Except.ok () : Except Builder.VErr Unit)
                    else .error (.probOutOfRange (Builder.fkOf pref key))) =
                    .ok () := by
                  have hpp : (prob || (some g).isSome) = true := by simp
                  rw [← hp]
                  simp only [Builder.probCheck, hpp, Builder.Value.asRat,
                    if_true]
                  split_ifs <;> rfl
                by_cases hb : 0 ≤ q ∧ q < 1
                · exact hb
                · rw [if_neg hb] at hp'
                  exact absurd hp' (by simp)
              cases hga : Builder.groupAdd (Builder.fkOf pref key) (.vfloat q)
                  (some g) acc with
              | error e =>
                rw [hga, exceptBind_error] at h
                exact Except.noConfusion h
              | ok a =>
                rw [hga, exceptBind_ok] at h
                have ha : a = Builder.addAcc acc g q := by
                  have hga' : (if (Builder.lookupAcc
                      (Builder.addAcc acc g q) g).getD 0 > 1
                      then (Except.error (Builder.VErr.groupOverflow g) :
                        Except Builder.VErr (List (String × ℚ)))
                      else .ok (Builder.addAcc acc g q)) = .ok a := hga
                  by_cases hov : (Builder.lookupAcc
                      (Builder.addAcc acc g q) g).getD 0 > 1
                  · rw [if_pos hov] at hga'
                    exact absurd hga' (by simp)
                  · rw [if_neg hov] at hga'
                    exact (Except.ok.inj hga').symm
                simp only [Builder.customCheck, exceptBind_ok] at h
                exact ⟨q, hq.1, hq.2, by rw [← Except.ok.inj h, ha]⟩
          | vint m => exact absurd hty (by simp [Builder.typeMatches])
          | vstr s => exact absurd hty (by simp [Builder.typeMatches])
          | vtime a b c d => exact absurd hty (by simp [Builder.typeMatches])
          | vmatrix a b => exact absurd hty (by simp [Builder.typeMatches])
          | vdict es => exact absurd hty (by simp [Builder.typeMatches])
          | vlist es => exact absurd hty (by simp [Builder.typeMatches])

theorem lookupAcc_some_mem (acc : List (String × ℚ)) (g : String) (s : ℚ)
    (h : Builder.lookupAcc acc g = some s) : (g, s) ∈ acc := by
  induction acc with
  | nil => exact absurd h (by simp [Builder.lookupAcc])
  | cons e t ih =>
    by_cases he : e.1 = g
    · rw [Builder.lookupAcc, if_pos he] at h
      have hs : e.2 = s := Option.some.inj h
      have : e = (g, s) := Prod.ext he hs
      rw [← this]
      exact List.mem_cons_self e t
    · rw [Builder.lookupAcc, if_neg he] at h
      exact List.mem_cons_of_mem e (ih h)

/-- Walking the `triage` parameter set over a document whose `levels` list
holds exactly one record leaves the `triage_levels` accumulator at a single
value strictly below 1. -/
theorem triage_levels_singleton_acc (v t e : Builder.Value)
    (acc acc' : List (String × ℚ))
    (ht : Builder.vGet v "triage" = some t)
    (hl : Builder.vGet t "levels" = some (.vlist [e]))
    (hacc : Builder.lookupAcc acc "triage_levels" = none)
    (h : Builder.pvalidate 8 none Builder.triageParam v acc = .ok acc') :
    ∃ q, 0 ≤ q ∧ q < 1 ∧
      Builder.lookupAcc acc' "triage_levels" = some q := by
  obtain ⟨w, hw, hvc⟩ := pvalidate_nested_inv 7 none "triage"
    [.scalar "attention_time" .ptime none false none,
      .scalar "icu" .pfloat none true (some "triage_diagnosis"),
      .plist "doctors_probabilities" [
        .scalar "specialty" .pstr none false none,
        .scalar "probability" .pfloat none false (some "triage_diagnosis")],
      .plist "levels" [
        .scalar "level" .pint (some (.nonnegInt "Must be a positive int"))
          false none,
        .scalar "probability" .pfloat none false (some "triage_levels"),
        .scalar "wait_time" .ptime none false none]] v acc acc' h
  cases v with
  | vdict entries =>
    simp only [Builder.vGet] at ht
    simp only [Builder.getItem, ht] at hw
    have hwt : w = t := (Except.ok.inj hw).symm
    subst hwt
    cases w with
    | vdict tes =>
      simp only [Builder.vGet] at hl
      simp [Builder.validateChildren, Builder.Value.isDictB] at hvc
      cases hb1 : Builder.pvalidate 7 (some (Builder.fkOf none "triage", false))
          (.scalar "attention_time" .ptime none false none)
          (.vdict tes) acc with
      | error er => rw [hb1, exceptBind_error] at hvc; exact Except.noConfusion hvc
      | ok a1 =>
        rw [hb1, exceptBind_ok] at hvc
        have l1 : Builder.lookupAcc a1 "triage_levels" = none := by
          rw [pvalidate_preserves "triage_levels" 7 _ _ _ acc a1 (by decide) hb1]
          exact hacc
        cases hb2 : Builder.pvalidate 7 (some (Builder.fkOf none "triage", false))
            (.scalar "icu" .pfloat none true (some "triage_diagnosis"))
            (.vdict tes) a1 with
        | error er => rw [hb2, exceptBind_error] at hvc; exact Except.noConfusion hvc
        | ok a2 =>
          rw [hb2, exceptBind_ok] at hvc
          have l2 : Builder.lookupAcc a2 "triage_levels" = none := by
            rw [pvalidate_preserves "triage_levels" 7 _ _ _ a1 a2 (by decide) hb2]
            exact l1
          cases hb3 : Builder.pvalidate 7 (some (Builder.fkOf none "triage", false))
              (.plist "doctors_probabilities" [
                .scalar "specialty" .pstr none false none,
                .scalar "probability" .pfloat none false
                  (some "triage_diagnosis")])
              (.vdict tes) a2 with
          | error er => rw [hb3, exceptBind_error] at hvc; exact Except.noConfusion hvc
          | ok a3 =>
            rw [hb3, exceptBind_ok] at hvc
            have l3 : Builder.lookupAcc a3 "triage_levels" = none := by
              rw [pvalidate_preserves "triage_levels" 7 _ _ _ a2 a3 (by decide)
                hb3]
              exact l2
            cases hb4 : Builder.pvalidate 7
                (some (Builder.fkOf none "triage", false))
                (.plist "levels" [
                  .scalar "level" .pint
                    (some (.nonnegInt "Must be a positive int")) false none,
                  .scalar "probability" .pfloat none false
                    (some "triage_levels"),
                  .scalar "wait_time" .ptime none false none])
                (.vdict tes) a3 with
            | error er =>
              rw [hb4, exceptBind_error] at hvc
              exact Except.noConfusion hvc
            | ok afin =>
            rw [hb4, exceptBind_ok] at hvc
            have hfin : afin = acc' := Except.ok.inj hvc
            rw [hfin] at hb4
            obtain ⟨elems, hge, hnz, hve⟩ := pvalidate_plist_inv 6
              (some (Builder.fkOf none "triage", false)) "levels"
              [.scalar "level" .pint (some (.nonnegInt "Must be a positive int"))
                false none,
                .scalar "probability" .pfloat none false (some "triage_levels"),
                .scalar "wait_time" .ptime none false none]
              (.vdict tes) a3 acc' hb4
            simp only [Builder.getItem, hl] at hge
            have helems : [e] = elems := Builder.Value.vlist.inj (Except.ok.inj hge)
            subst helems
            simp only [Builder.validateElems] at hve
            cases hva : Builder.validateAll
                (Builder.pvalidate 6
                  (some (Builder.fkOf (some (Builder.fkOf none "triage", false))
                    "levels", true)))
                [.scalar "level" .pint
                  (some (.nonnegInt "Must be a positive int")) false none,
                  .scalar "probability" .pfloat none false (some "triage_levels"),
                  .scalar "wait_time" .ptime none false none] e a3 with
            | error er => rw [hva, exceptBind_error] at hve; exact Except.noConfusion hve
            | ok a4 =>
              rw [hva, exceptBind_ok] at hve
              have hacc' : acc' = a4 := (Except.ok.inj hve).symm
              subst hacc'
              simp only [Builder.validateAll] at hva
              cases hc1 : Builder.pvalidate 6
                  (some (Builder.fkOf (some (Builder.fkOf none "triage", false))
                    "levels", true))
                  (.scalar "level" .pint
                    (some (.nonnegInt "Must be a positive int")) false none)
                  e a3 with
              | error er => rw [hc1, exceptBind_error] at hva; exact Except.noConfusion hva
              | ok b1 =>
                rw [hc1, exceptBind_ok] at hva
                have m1 : Builder.lookupAcc b1 "triage_levels" = none := by
                  rw [pvalidate_preserves "triage_levels" 6 _ _ _ a3 b1
                    (by decide) hc1]
                  exact l3
                cases hc2 : Builder.pvalidate 6
                    (some (Builder.fkOf (some (Builder.fkOf none "triage", false))
                      "levels", true))
                    (.scalar "probability" .pfloat none false
                      (some "triage_levels")) e b1 with
                | error er => rw [hc2, exceptBind_error] at hva; exact Except.noConfusion hva
                | ok b2 =>
                  rw [hc2, exceptBind_ok] at hva
                  obtain ⟨q, hq0, hq1, hb2acc⟩ :=
                    pvalidate_scalar_pfloat_group_ok 5 _ "probability" false
                      "triage_levels" e b1 b2 hc2
                  have m2 : Builder.lookupAcc b2 "triage_levels" = some q := by
                    rw [hb2acc, lookupAcc_addAcc_self, m1]
                  cases hc3 : Builder.pvalidate 6
                      (some (Builder.fkOf (some (Builder.fkOf none "triage",
                        false)) "levels", true))
                      (.scalar "wait_time" .ptime none false none) e b2 with
                  | error er => rw [hc3, exceptBind_error] at hva; exact Except.noConfusion hva
                  | ok b3 =>
                    rw [hc3, exceptBind_ok] at hva
                    have hb3a : b3 = acc' := Except.ok.inj hva
                    have m3 : Builder.lookupAcc b3 "triage_levels" = some q := by
                      rw [pvalidate_preserves "triage_levels" 6 _ _ _ b2 b3
                        (by decide) hc3]
                      exact m2
                    exact ⟨q, hq0, hq1, by rw [← hb3a]; exact m3⟩
    | vfloat q => exact absurd hl (by simp [Builder.vGet])
    | vint m => exact absurd hl (by simp [Builder.vGet])
    | vstr s => exact absurd hl (by simp [Builder.vGet])
    | vtime a b c d => exact absurd hl (by simp [Builder.vGet])
    | vmatrix a b => exact absurd hl (by simp [Builder.vGet])
    | vlist es => exact absurd hl (by simp [Builder.vGet])
  | vfloat q => exact absurd ht (by simp [Builder.vGet])
  | vint m => exact absurd ht (by simp [Builder.vGet])
  | vstr s => exact absurd ht (by simp [Builder.vGet])
  | vtime a b c d => exact absurd ht (by simp [Builder.vGet])
  | vmatrix a b => exact absurd ht (by simp [Builder.vGet])
  | vlist es => exact absurd ht (by simp [Builder.vGet])

/-- C9: a parameter document whose `triage.levels` list holds exactly one
record can never validate — the single probability must be strictly below 1
by the per-node range check, so the `triage_levels` group ends below 1 and
the final group check raises; and in general a schema whose probability
group is contributed to by exactly one scalar float node rejects every
document. -/
theorem c9_singleton_group_never_validates :
    (∀ d t e : Builder.Value, Builder.vGet d "triage" = some t →
      Builder.vGet t "levels" = some (.vlist [e]) →
      ∃ err, Builder.hospitalValidateParams d = .error err) ∧
    (∀ (key g : String) (d : Builder.Value),
      ∃ err, Builder.paramsValidate [.scalar key .pfloat none true (some g)] d =
        .error err) := by
  constructor
  · intro d t e ht hl
    unfold Builder.hospitalValidateParams Builder.paramsValidate
    cases hall : Builder.validateAll (Builder.pvalidate 8 none)
        Builder.hospitalRequiredParameters d [] with
    | error er => exact ⟨er, rfl⟩
    | ok acc =>
      have hrp : Builder.hospitalRequiredParameters =
          [Builder.humanParam, Builder.objectsParam, Builder.patientParam,
            Builder.receptionParam, Builder.triageParam, Builder.icuParam,
            Builder.doctorsParam] := rfl
      rw [hrp] at hall
      simp only [Builder.validateAll] at hall
      cases h1 : Builder.pvalidate 8 none Builder.humanParam d [] with
      | error er => rw [h1, exceptBind_error] at hall; exact Except.noConfusion hall
      | ok a1 =>
      rw [h1, exceptBind_ok] at hall
      have l1 : Builder.lookupAcc a1 "triage_levels" = none := by
        rw [pvalidate_preserves "triage_levels" 8 none Builder.humanParam d []
          a1 (by decide) h1]
        rfl
      cases h2 : Builder.pvalidate 8 none Builder.objectsParam d a1 with
      | error er => rw [h2, exceptBind_error] at hall; exact Except.noConfusion hall
      | ok a2 =>
      rw [h2, exceptBind_ok] at hall
      have l2 : Builder.lookupAcc a2 "triage_levels" = none := by
        rw [pvalidate_preserves "triage_levels" 8 none Builder.objectsParam d
          a1 a2 (by decide) h2]
        exact l1
      cases h3 : Builder.pvalidate 8 none Builder.patientParam d a2 with
      | error er => rw [h3, exceptBind_error] at hall; exact Except.noConfusion hall
      | ok a3 =>
      rw [h3, exceptBind_ok] at hall
      have l3 : Builder.lookupAcc a3 "triage_levels" = none := by
        rw [pvalidate_preserves "triage_levels" 8 none Builder.patientParam d
          a2 a3 (by decide) h3]
        exact l2
      cases h4 : Builder.pvalidate 8 none Builder.receptionParam d a3 with
      | error er => rw [h4, exceptBind_error] at hall; exact Except.noConfusion hall
      | ok a4 =>
      rw [h4, exceptBind_ok] at hall
      have l4 : Builder.lookupAcc a4 "triage_levels" = none := by
        rw [pvalidate_preserves "triage_levels" 8 none Builder.receptionParam d
          a3 a4 (by decide) h4]
        exact l3
      cases h5 : Builder.pvalidate 8 none Builder.triageParam d a4 with
      | error er => rw [h5, exceptBind_error] at hall; exact Except.noConfusion hall
      | ok a5 =>
      rw [h5, exceptBind_ok] at hall
      obtain ⟨q, hq0, hq1, l5⟩ :=
        triage_levels_singleton_acc d t e a4 a5 ht hl l4 h5
      cases h6 : Builder.pvalidate 8 none Builder.icuParam d a5 with
      | error er => rw [h6, exceptBind_error] at hall; exact Except.noConfusion hall
      | ok a6 =>
      rw [h6, exceptBind_ok] at hall
      have l6 : Builder.lookupAcc a6 "triage_levels" = some q := by
        rw [pvalidate_preserves "triage_levels" 8 none Builder.icuParam d
          a5 a6 (by decide) h6]
        exact l5
      cases h7 : Builder.pvalidate 8 none Builder.doctorsParam d a6 with
      | error er => rw [h7, exceptBind_error] at hall; exact Except.noConfusion hall
      | ok a7 =>
      rw [h7, exceptBind_ok] at hall
      have l7 : Builder.lookupAcc a7 "triage_levels" = some q := by
        rw [pvalidate_preserves "triage_levels" 8 none Builder.doctorsParam d
          a6 a7 (by decide) h7]
        exact l6
      have hacca : a7 = acc := Except.ok.inj hall
      have lacc : Builder.lookupAcc acc "triage_levels" = some q := by
        rw [← hacca]
        exact l7
      have hmem := lookupAcc_some_mem acc "triage_levels" q lacc
      obtain ⟨g', s, hfc, _⟩ := finalCheck_error_of_mem_lt acc
        ⟨("triage_levels", q), hmem, hq1⟩
      exact ⟨.groupIncomplete g' s, hfc⟩
  · intro key g d
    cases hp : Builder.pvalidate 8 none (.scalar key .pfloat none true (some g))
        d [] with
    | error er =>
      refine ⟨er, ?_⟩
      unfold Builder.paramsValidate
      simp only [Builder.validateAll]
      rw [hp]
      rfl
    | ok a =>
      obtain ⟨q, h0, h1', ha⟩ :=
        pvalidate_scalar_pfloat_group_ok 7 none key true g d [] a hp
      refine ⟨.groupIncomplete g q, ?_⟩
      unfold Builder.paramsValidate
      simp only [Builder.validateAll]
      rw [hp, exceptBind_ok, ha]
      show Builder.finalCheck (Builder.addAcc [] g q) =
        .error (.groupIncomplete g q)
      simp only [Builder.addAcc, Builder.finalCheck]
      rw [if_pos h1']

/-- Witness for C9: the demo document restricted to a single triage level of
probability 1/5 is rejected, as is the singleton-group schema on a matching
document. -/
theorem c9_singleton_group_never_validates_witness :
    (∃ err, Builder.hospitalValidateParams Builder.singleLevelDoc =
      .error err) ∧
    (∃ err, Builder.paramsValidate
      [.scalar "p" .pfloat none true (some "grp")]
      (.vdict [("p", .vfloat (mkRat 1 2))]) = .error err) :=
  ⟨c9_singleton_group_never_validates.1 Builder.singleLevelDoc
      Builder.singleLevelTriage Builder.singleLevelRecord rfl rfl,
    c9_singleton_group_never_validates.2 "p" "grp"
      (.vdict [("p", .vfloat (mkRat 1 2))])⟩

/-- C1: the round-trip guarantee fails on the code for every grid holding a
Doctor tile.  For the 1-by-1 grid whose cell is `Doctor(0)` (stored code
128, wire byte 128), decoding the encoded bytes yields a grid whose Doctor
cell carries code 0 instead of 128: the decoded grid differs from the
original, and re-encoding it emits byte 0 (the Floor code) rather than
128.  The spec's claim `decode(encode(g)) == g` is therefore violated;
`Doctor.decode` stores `type - 128` in the `code` attribute that
`to_bytes` serializes, contradicting the convention `code = specialty + 128`
established by `Doctor.__init__`. -/
theorem decodeTile_error_iff (c : ℕ) :
    (∃ e, Plan.decodeTile c = .error e) ↔ ¬ Plan.knownTileCode c := by
  unfold Plan.decodeTile Plan.doctorDecode Plan.knownTileCode
  split_ifs <;> simp_all

theorem decodeList_error_iff :
    ∀ cs : List ℕ,
      (∃ e, Plan.decodeList cs = .error e) ↔ ∃ c ∈ cs, ¬ Plan.knownTileCode c := by
  intro cs
  induction cs with
  | nil => simp [Plan.decodeList]
  | cons c cs ih =>
    cases htc : Plan.decodeTile c with
    | error e =>
      have hnk : ¬ Plan.knownTileCode c := (decodeTile_error_iff c).1 ⟨e, htc⟩
      refine iff_of_true ⟨e, ?_⟩ ⟨c, List.mem_cons_self c cs, hnk⟩
      simp only [Plan.decodeList, htc, exceptBind_error]
    | ok t =>
      have hk : Plan.knownTileCode c := by
        by_contra hn
        obtain ⟨e, he⟩ := (decodeTile_error_iff c).2 hn
        rw [htc] at he
        exact Except.noConfusion he
      cases hrest : Plan.decodeList cs with
      | error e =>
        obtain ⟨c', hc', hnk'⟩ := ih.1 ⟨e, hrest⟩
        refine iff_of_true ⟨e, ?_⟩ ⟨c', List.mem_cons_of_mem _ hc', hnk'⟩
        simp only [Plan.decodeList, htc, exceptBind_ok, hrest, exceptBind_error]
      | ok ts =>
        refine iff_of_false ?_ ?_
        · rintro ⟨e, he⟩
          simp only [Plan.decodeList, htc, exceptBind_ok, hrest] at he
          exact Except.noConfusion he
        · rintro ⟨c', hc', hnk'⟩
          rcases List.mem_cons.1 hc' with h | h
          · exact hnk' (h ▸ hk)
          · obtain ⟨e, he⟩ := ih.2 ⟨c', h, hnk'⟩
            rw [hrest] at he
            exact Except.noConfusion he

theorem decodeList_ok_length :
    ∀ (cs : List ℕ) (ts : List Plan.Tile),
      Plan.decodeList cs = .ok ts → ts.length = cs.length := by
  intro cs
  induction cs with
  | nil =>
    intro ts h
    simp only [Plan.decodeList] at h
    have h' := Except.ok.inj h
    subst h'
    rfl
  | cons c cs ih =>
    intro ts h
    cases htc : Plan.decodeTile c with
    | error e =>
      simp only [Plan.decodeList, htc, exceptBind_error] at h
      exact Except.noConfusion h
    | ok t =>
      cases hrest : Plan.decodeList cs with
      | error e =>
        simp only [Plan.decodeList, htc, exceptBind_ok, hrest, exceptBind_error] at h
        exact Except.noConfusion h
      | ok ts' =>
        simp only [Plan.decodeList, htc, exceptBind_ok, hrest] at h
        rw [← Except.ok.inj h]
        simp [ih ts' hrest]

theorem decodeMatrix_error_iff :
    ∀ rs : List (List ℕ),
      (∃ e, Plan.decodeMatrix rs = .error e) ↔
        ∃ r ∈ rs, ∃ c ∈ r, ¬ Plan.knownTileCode c := by
  intro rs
  induction rs with
  | nil => simp [Plan.decodeMatrix]
  | cons r rs ih =>
    cases hr : Plan.decodeList r with
    | error e =>
      obtain ⟨c, hc, hnk⟩ := (decodeList_error_iff r).1 ⟨e, hr⟩
      refine iff_of_true ⟨e, ?_⟩ ⟨r, List.mem_cons_self r rs, c, hc, hnk⟩
      simp only [Plan.decodeMatrix, hr, exceptBind_error]
    | ok ts =>
      have hok : ∀ c ∈ r, Plan.knownTileCode c := by
        intro c hc
        by_contra hn
        obtain ⟨e, he⟩ := (decodeList_error_iff r).2 ⟨c, hc, hn⟩
        rw [hr] at he
        exact Except.noConfusion he
      cases hrest : Plan.decodeMatrix rs with
      | error e =>
        obtain ⟨r', hr', c', hc', hnk'⟩ := ih.1 ⟨e, hrest⟩
        refine iff_of_true ⟨e, ?_⟩ ⟨r', List.mem_cons_of_mem _ hr', c', hc', hnk'⟩
        simp only [Plan.decodeMatrix, hr, exceptBind_ok, hrest, exceptBind_error]
      | ok tss =>
        refine iff_of_false ?_ ?_
        · rintro ⟨e, he⟩
          simp only [Plan.decodeMatrix, hr, exceptBind_ok, hrest] at he
          exact Except.noConfusion he
        · rintro ⟨r', hr', c', hc', hnk'⟩
          rcases List.mem_cons.1 hr' with h | h
          · exact hnk' (hok c' (h ▸ hc'))
          · obtain ⟨e, he⟩ := ih.2 ⟨r', h, c', hc', hnk'⟩
            rw [hrest] at he
            exact Except.noConfusion he

theorem decodeMatrix_ok_shape :
    ∀ (rs : List (List ℕ)) (tss : List (List Plan.Tile)),
      Plan.decodeMatrix rs = .ok tss →
        tss.length = rs.length ∧ ∀ t ∈ tss, ∃ r ∈ rs, t.length = r.length := by
  intro rs
  induction rs with
  | nil =>
    intro tss h
    simp only [Plan.decodeMatrix] at h
    rw [← Except.ok.inj h]
    simp
  | cons r rs ih =>
    intro tss h
    cases hr : Plan.decodeList r with
    | error e =>
      simp only [Plan.decodeMatrix, hr, exceptBind_error] at h
      exact Except.noConfusion h
    | ok ts =>
      cases hrest : Plan.decodeMatrix rs with
      | error e =>
        simp only [Plan.decodeMatrix, hr, exceptBind_ok, hrest, exceptBind_error] at h
        exact Except.noConfusion h
      | ok tss' =>
        simp only [Plan.decodeMatrix, hr, exceptBind_ok, hrest] at h
        obtain ⟨hlen, hmem⟩ := ih tss' hrest
        rw [← Except.ok.inj h]
        constructor
        · simp [hlen]
        · intro t ht
          rcases List.mem_cons.1 ht with h' | h'
          · exact ⟨r, List.mem_cons_self r rs, h' ▸ decodeList_ok_length r ts hr⟩
          · obtain ⟨r', hr', hl⟩ := hmem t h'
            exact ⟨r', List.mem_cons_of_mem _ hr', hl⟩

theorem range_slices_eq_chunksOf (R : ℕ) :
    ∀ (C : ℕ) (l : List ℕ),
      (List.range C).map (fun i => (l.drop (R * i)).take R) = chunksOf R C l := by
  intro C
  induction C with
  | zero => intro l; rfl
  | succ C ih =>
    intro l
    rw [List.range_succ_eq_map, List.map_cons, List.map_map]
    have h1 : (fun i => (l.drop (R * i)).take R) ∘ Nat.succ =
        fun i => ((l.drop R).drop (R * i)).take R := by
      funext i
      simp only [Function.comp]
      rw [List.drop_drop]
      have h2 : R * Nat.succ i = R + R * i := by
        rw [Nat.succ_eq_add_one]
        ring
      rw [h2]
    rw [h1, ih (l.drop R)]
    simp [chunksOf]

theorem chunksOf_flatten (R : ℕ) :
    ∀ (C : ℕ) (l : List ℕ), l.length = C * R → (chunksOf R C l).flatten = l := by
  intro C
  induction C with
  | zero =>
    intro l h
    simp only [Nat.zero_mul] at h
    rw [List.eq_nil_of_length_eq_zero h]
    rfl
  | succ C ih =>
    intro l h
    have hdrop : (l.drop R).length = C * R := by
      rw [List.length_drop, h]
      have : (C + 1) * R = C * R + R := by ring
      omega
    simp only [chunksOf, List.flatten_cons, ih (l.drop R) hdrop]
    exact List.take_append_drop R l

theorem planSlices_eq_chunksOf (buf : List ℕ) (C R : ℕ) :
    Plan.planSlices buf C R = chunksOf R C (buf.drop 16) := by
  rw [← range_slices_eq_chunksOf]
  unfold Plan.planSlices
  apply List.map_congr_left
  intro i _
  rw [List.drop_drop, Nat.add_comm]

theorem planSlices_flatten (buf : List ℕ) (C R : ℕ)
    (h : (buf.drop 16).length = C * R) :
    (Plan.planSlices buf C R).flatten = buf.drop 16 := by
  rw [planSlices_eq_chunksOf]
  exact chunksOf_flatten R C _ h

theorem chunksOf_mem_length (R : ℕ) :
    ∀ (C : ℕ) (l : List ℕ), l.length = C * R → ∀ s ∈ chunksOf R C l, s.length = R := by
  intro C
  induction C with
  | zero => intro l h s hs; exact absurd hs (by simp [chunksOf])
  | succ C ih =>
    intro l h s hs
    have hCR : (C + 1) * R = C * R + R := by ring
    rw [hCR] at h
    rcases List.mem_cons.1 hs with h' | h'
    · subst h'
      rw [List.length_take]
      omega
    · exact ih (l.drop R) (by rw [List.length_drop]; omega) s h'

theorem planSlices_mem_length (buf : List ℕ) (C R : ℕ)
    (h : (buf.drop 16).length = C * R) :
    ∀ s ∈ Plan.planSlices buf C R, s.length = R := by
  rw [planSlices_eq_chunksOf]
  exact chunksOf_mem_length R C _ h

theorem readU32_append (p q : List ℕ) (i : ℕ) (h : i + 3 < p.length) :
    Plan.readU32 (p ++ q) i = Plan.readU32 p i := by
  unfold Plan.readU32
  rw [List.getD_append _ _ _ _ (by omega), List.getD_append _ _ _ _ (by omega),
    List.getD_append _ _ _ _ (by omega), List.getD_append _ _ _ _ (by omega)]

theorem headerFromBytes_append_form (p q : List ℕ) (hp : p.length = 12)
    (hq : q.length = 4) :
    Plan.Header.fromBytes (p ++ q) =
      (if p.getD 0 0 ≠ 80 then .error "Unknown magic numbers"
       else if p.getD 1 0 ≠ 76 then .error "Unknown magic numbers"
       else if p.getD 2 0 ≠ 65 then .error "Unknown magic numbers"
       else if p.getD 3 0 ≠ 1 then .error "Unsupported version"
       else .ok ⟨Plan.readU32 p 4, Plan.readU32 p 8⟩) := by
  have hlen : (p ++ q).length = 16 := by simp [hp, hq]
  unfold Plan.Header.fromBytes
  rw [if_neg (by simp [hlen]), List.getD_append _ _ _ _ (by omega),
    List.getD_append _ _ _ _ (by omega), List.getD_append _ _ _ _ (by omega),
    List.getD_append _ _ _ _ (by omega), readU32_append _ _ _ (by omega),
    readU32_append _ _ _ (by omega)]

theorem getD_take16 (buf : List ℕ) (i : ℕ) (h : i < 16) :
    (buf.take 16).getD i 0 = buf.getD i 0 := by
  simp only [List.getD, List.get?_eq_getElem?]
  rw [List.getElem?_take_of_lt h]

theorem readU32_take16 (buf : List ℕ) (i : ℕ) (h : i + 3 < 16) :
    Plan.readU32 (buf.take 16) i = Plan.readU32 buf i := by
  unfold Plan.readU32
  rw [getD_take16 _ _ (by omega), getD_take16 _ _ (by omega),
    getD_take16 _ _ (by omega), getD_take16 _ _ (by omega)]

theorem headerFromBytes_take_short (buf : List ℕ) (h : buf.length < 16) :
    Plan.Header.fromBytes (buf.take 16) = .error "Wrong buffer size" := by
  unfold Plan.Header.fromBytes
  rw [if_pos (by simp [List.length_take]; omega)]

theorem headerFromBytes_take_form (buf : List ℕ) (h : 16 ≤ buf.length) :
    Plan.Header.fromBytes (buf.take 16) =
      (if buf.getD 0 0 ≠ 80 then .error "Unknown magic numbers"
       else if buf.getD 1 0 ≠ 76 then .error "Unknown magic numbers"
       else if buf.getD 2 0 ≠ 65 then .error "Unknown magic numbers"
       else if buf.getD 3 0 ≠ 1 then .error "Unsupported version"
       else .ok ⟨Plan.readU32 buf 4, Plan.readU32 buf 8⟩) := by
  unfold Plan.Header.fromBytes
  rw [if_neg (by simp [List.length_take]; omega)]
  rw [getD_take16 _ 0 (by omega), getD_take16 _ 1 (by omega),
    getD_take16 _ 2 (by omega), getD_take16 _ 3 (by omega),
    readU32_take16 _ 4 (by omega), readU32_take16 _ 8 (by omega)]

theorem fromBytes_of_header_error {buf : List ℕ} {e : String}
    (h : Plan.Header.fromBytes (buf.take 16) = .error e) :
    Plan.BuildingPlan.fromBytes buf = .error e := by
  unfold Plan.BuildingPlan.fromBytes
  rw [h]
  rfl

theorem fromBytes_of_header_ok {buf : List ℕ} {hd : Plan.Header}
    (h : Plan.Header.fromBytes (buf.take 16) = .ok hd) :
    Plan.BuildingPlan.fromBytes buf =
      (if (buf.drop 16).length ≠ hd.columns * hd.rows then .error "Wrong file size"
       else Plan.decodeMatrix (Plan.planSlices buf hd.columns hd.rows) >>= fun data =>
        .ok ⟨hd, data⟩) := by
  unfold Plan.BuildingPlan.fromBytes
  rw [h]
  rfl

/-- C10: `Header.from_bytes` never inspects the 4 reserved bytes.  For every
16-byte buffer split into a 12-byte prefix and a 4-byte reserved field,
the decode result is independent of the reserved field's content; with
correct magic bytes and a supported version it succeeds with the column
and row counts read from the prefix, even though `Header.to_bytes` always
writes the reserved field as zero. -/
theorem c10_reserved_bytes_ignored :
    (∀ p r r' : List ℕ, p.length = 12 → r.length = 4 → r'.length = 4 →
      Plan.Header.fromBytes (p ++ r) = Plan.Header.fromBytes (p ++ r')) ∧
    (∀ p r : List ℕ, p.length = 12 → r.length = 4 →
      p.getD 0 0 = 80 → p.getD 1 0 = 76 → p.getD 2 0 = 65 → p.getD 3 0 = 1 →
      Plan.Header.fromBytes (p ++ r) = .ok ⟨Plan.readU32 p 4, Plan.readU32 p 8⟩) ∧
    (∀ h : Plan.Header, h.toBytes.drop 12 = [0, 0, 0, 0]) := by
  refine ⟨fun p r r' hp hr hr' => ?_, fun p r hp hr h0 h1 h2 h3 => ?_, fun h => rfl⟩
  · rw [headerFromBytes_append_form p r hp hr, headerFromBytes_append_form p r' hp hr']
  · rw [headerFromBytes_append_form p r hp hr]
    simp only [List.getD, List.get?_eq_getElem?] at h0 h1 h2 h3
    simp [h0, h1, h2, h3]

/-- Witness for C10 at a concrete header buffer: reserved bytes 9,9,9,9 and
0,0,0,0 decode identically, and decoding succeeds with columns 2, rows 3. -/
theorem c10_reserved_bytes_ignored_witness :
    Plan.Header.fromBytes ([80, 76, 65, 1, 2, 0, 0, 0, 3, 0, 0, 0] ++ [9, 9, 9, 9]) =
      Plan.Header.fromBytes ([80, 76, 65, 1, 2, 0, 0, 0, 3, 0, 0, 0] ++ [0, 0, 0, 0]) ∧
    Plan.Header.fromBytes ([80, 76, 65, 1, 2, 0, 0, 0, 3, 0, 0, 0] ++ [9, 9, 9, 9]) =
      .ok ⟨2, 3⟩ := by
  constructor
  · exact c10_reserved_bytes_ignored.1 [80, 76, 65, 1, 2, 0, 0, 0, 3, 0, 0, 0]
      [9, 9, 9, 9] [0, 0, 0, 0] (by decide) (by decide) (by decide)
  · rw [c10_reserved_bytes_ignored.2.1 [80, 76, 65, 1, 2, 0, 0, 0, 3, 0, 0, 0]
      [9, 9, 9, 9] (by decide) (by decide) (by decide) (by decide) (by decide)
      (by decide)]
    decide

theorem c1_doctor_roundtrip_fails_on_code :
    Plan.doctorInit 0 = .ok (.doctor 128) ∧
    Plan.BuildingPlan.toBytes Plan.doctorPlan =
      [80, 76, 65, 1, 1, 0, 0, 0, 1, 0, 0, 0, 0, 0, 0, 0, 128] ∧
    Plan.BuildingPlan.fromBytes (Plan.BuildingPlan.toBytes Plan.doctorPlan) =
      .ok Plan.doctorPlanDecoded ∧
    Plan.doctorPlanDecoded ≠ Plan.doctorPlan ∧
    Plan.BuildingPlan.toBytes Plan.doctorPlanDecoded ≠
      Plan.BuildingPlan.toBytes Plan.doctorPlan ∧
    Plan.Tile.code (.doctor 0) = 0 := by
  refine ⟨by decide, by decide, by decide, by decide, by decide, rfl⟩

/-- C3: `BuildingPlan.from_bytes` fails exactly when the buffer is shorter
than the 16-byte header, the magic bytes are not P,L,A, the version byte is
not 1, the payload length differs from columns*rows, or some payload byte
is neither a fixed tile code nor in the Doctor sub-range [128,255]; on
success the decoded grid has exactly the header's column count of columns,
each holding exactly the header's row count of tiles (no truncation or
padding). -/
theorem c3_from_bytes_failure_characterization (buf : List ℕ) :
    ((∃ e, Plan.BuildingPlan.fromBytes buf = .error e) ↔
      (buf.length < 16 ∨
        ¬(buf.getD 0 0 = 80 ∧ buf.getD 1 0 = 76 ∧ buf.getD 2 0 = 65) ∨
        buf.getD 3 0 ≠ 1 ∨
        buf.length - 16 ≠ Plan.readU32 buf 4 * Plan.readU32 buf 8 ∨
        ∃ c ∈ buf.drop 16, ¬ Plan.knownTileCode c)) ∧
    (∀ p, Plan.BuildingPlan.fromBytes buf = .ok p →
      p.header.columns = Plan.readU32 buf 4 ∧ p.header.rows = Plan.readU32 buf 8 ∧
      p.data.length = p.header.columns ∧
      ∀ col ∈ p.data, col.length = p.header.rows) := by
  by_cases hlen : buf.length < 16
  · have hfb : Plan.BuildingPlan.fromBytes buf = .error "Wrong buffer size" :=
      fromBytes_of_header_error (headerFromBytes_take_short buf hlen)
    refine ⟨iff_of_true ⟨_, hfb⟩ (Or.inl hlen), fun p hp => ?_⟩
    rw [hfb] at hp
    exact Except.noConfusion hp
  · push_neg at hlen
    have hform := headerFromBytes_take_form buf hlen
    by_cases hmagic : buf.getD 0 0 = 80 ∧ buf.getD 1 0 = 76 ∧ buf.getD 2 0 = 65
    case neg =>
      have hh : Plan.Header.fromBytes (buf.take 16) = .error "Unknown magic numbers" := by
        rw [hform]
        by_cases h0 : buf.getD 0 0 = 80
        · by_cases h1 : buf.getD 1 0 = 76
          · have h2 : ¬ buf.getD 2 0 = 65 := fun h2 => hmagic ⟨h0, h1, h2⟩
            rw [if_neg (fun hne => hne h0), if_neg (fun hne => hne h1), if_pos h2]
          · rw [if_neg (fun hne => hne h0), if_pos h1]
        · rw [if_pos h0]
      have hfb : Plan.BuildingPlan.fromBytes buf = .error "Unknown magic numbers" :=
        fromBytes_of_header_error hh
      refine ⟨iff_of_true ⟨_, hfb⟩ (Or.inr (Or.inl hmagic)), fun p hp => ?_⟩
      rw [hfb] at hp
      exact Except.noConfusion hp
    case pos =>
      obtain ⟨h0, h1, h2⟩ := hmagic
      by_cases hver : buf.getD 3 0 = 1
      case neg =>
        have hh : Plan.Header.fromBytes (buf.take 16) = .error "Unsupported version" := by
          rw [hform, if_neg (fun hne => hne h0), if_neg (fun hne => hne h1),
            if_neg (fun hne => hne h2), if_pos hver]
        have hfb : Plan.BuildingPlan.fromBytes buf = .error "Unsupported version" :=
          fromBytes_of_header_error hh
        refine ⟨iff_of_true ⟨_, hfb⟩ (Or.inr (Or.inr (Or.inl hver))), fun p hp => ?_⟩
        rw [hfb] at hp
        exact Except.noConfusion hp
      case pos =>
        have hh : Plan.Header.fromBytes (buf.take 16) =
            .ok ⟨Plan.readU32 buf 4, Plan.readU32 buf 8⟩ := by
          rw [hform, if_neg (fun hne => hne h0), if_neg (fun hne => hne h1),
            if_neg (fun hne => hne h2), if_neg (fun hne => hne hver)]
        have hrest := fromBytes_of_header_ok hh
        dsimp only at hrest
        by_cases hsz : (buf.drop 16).length = Plan.readU32 buf 4 * Plan.readU32 buf 8
        case neg =>
          have hfb : Plan.BuildingPlan.fromBytes buf = .error "Wrong file size" := by
            rw [hrest, if_pos hsz]
          have hsz' : buf.length - 16 ≠ Plan.readU32 buf 4 * Plan.readU32 buf 8 := by
            rw [← List.length_drop]
            exact hsz
          refine ⟨iff_of_true ⟨_, hfb⟩ (Or.inr (Or.inr (Or.inr (Or.inl hsz')))),
            fun p hp => ?_⟩
          rw [hfb] at hp
          exact Except.noConfusion hp
        case pos =>
          rw [if_neg (by simp [hsz])] at hrest
          have hflat := planSlices_flatten buf _ _ hsz
          cases hdm : Plan.decodeMatrix
              (Plan.planSlices buf (Plan.readU32 buf 4) (Plan.readU32 buf 8)) with
          | error e =>
            have hfb : Plan.BuildingPlan.fromBytes buf = .error e := by
              rw [hrest, hdm, exceptBind_error]
            obtain ⟨r, hr, c, hc, hnk⟩ := (decodeMatrix_error_iff _).1 ⟨e, hdm⟩
            have hcmem : c ∈ buf.drop 16 := by
              rw [← hflat]
              exact List.mem_flatten.2 ⟨r, hr, hc⟩
            refine ⟨iff_of_true ⟨_, hfb⟩
              (Or.inr (Or.inr (Or.inr (Or.inr ⟨c, hcmem, hnk⟩)))), fun p hp => ?_⟩
            rw [hfb] at hp
            exact Except.noConfusion hp
          | ok data =>
            have hfb : Plan.BuildingPlan.fromBytes buf =
                .ok ⟨⟨Plan.readU32 buf 4, Plan.readU32 buf 8⟩, data⟩ := by
              rw [hrest, hdm, exceptBind_ok]
            constructor
            · refine iff_of_false ?_ ?_
              · rintro ⟨e, he⟩
                rw [hfb] at he
                exact Except.noConfusion he
              · rintro (h | h | h | h | ⟨c, hcmem, hnk⟩)
                · omega
                · exact h ⟨h0, h1, h2⟩
                · exact h hver
                · rw [← List.length_drop] at h
                  exact h hsz
                · rw [← hflat] at hcmem
                  obtain ⟨r, hr, hc⟩ := List.mem_flatten.1 hcmem
                  obtain ⟨e, he⟩ := (decodeMatrix_error_iff _).2 ⟨r, hr, c, hc, hnk⟩
                  rw [hdm] at he
                  exact Except.noConfusion he
            · intro p hp
              rw [hfb] at hp
              have hp' := Except.ok.inj hp
              subst hp'
              obtain ⟨hdl, hmem⟩ := decodeMatrix_ok_shape _ _ hdm
              refine ⟨rfl, rfl, ?_, ?_⟩
              · rw [hdl]
                simp [Plan.planSlices]
              · intro col hcol
                obtain ⟨r, hr, hl⟩ := hmem col hcol
                rw [hl]
                exact planSlices_mem_length buf _ _ hsz r hr

/-- Witness for C3: a 3-byte buffer is rejected (shorter than the header),
and decoding the encoded doctor plan succeeds with the header dimensions
and an untruncated, unpadded 1-by-1 grid. -/
theorem c3_from_bytes_failure_characterization_witness :
    (∃ e, Plan.BuildingPlan.fromBytes [9, 9, 9] = .error e) ∧
    (Plan.doctorPlanDecoded.header.columns =
        Plan.readU32 (Plan.BuildingPlan.toBytes Plan.doctorPlan) 4 ∧
      Plan.doctorPlanDecoded.header.rows =
        Plan.readU32 (Plan.BuildingPlan.toBytes Plan.doctorPlan) 8 ∧
      Plan.doctorPlanDecoded.data.length =
        Plan.doctorPlanDecoded.header.columns ∧
      ∀ col ∈ Plan.doctorPlanDecoded.data,
        col.length = Plan.doctorPlanDecoded.header.rows) := by
  constructor
  · exact (c3_from_bytes_failure_characterization [9, 9, 9]).1.mpr
      (Or.inl (by decide))
  · exact (c3_from_bytes_failure_characterization
      (Plan.BuildingPlan.toBytes Plan.doctorPlan)).2 Plan.doctorPlanDecoded
      (by decide)

